import Mathlib

/-!
Verification development for the datagrid widget toolkit
(`datagrid_gtk3/ui/grid.py` and `datagrid_gtk3/utils/imageutils.py`).

The Python source is shallowly embedded: pure helpers become Lean
functions, stateful methods become explicit state-passing functions, and
fallible code returns `Except String`.  Machine values flowing through the
grid (column values, row ids, clause parameters) are modelled by the
`Value` type below.
-/

namespace Datagrid

/-- A scalar value as stored in a row's data tuple.  `vnone` is Python's
`None`; `vpixbuf w h` stands for a rendered pixel buffer of the given
dimensions. -/
inductive Value where
  | vnone
  | vbool (b : Bool)
  | vint (n : Int)
  | vstr (s : String)
  | vpixbuf (w h : Nat)
deriving DecidableEq, Repr

/-- Python truthiness (`bool(value)`) for the values we model. -/
def pyBool : Value → Bool
  | .vnone => false
  | .vbool b => b
  | .vint n => n ≠ 0
  | .vstr s => s ≠ ""
  | .vpixbuf _ _ => true

/-- Parse a non-empty all-digit character sequence as a natural
number. -/
def parseDigits (cs : List Char) : Option Nat :=
  if cs.isEmpty then none
  else cs.foldl (fun acc c =>
    match acc with
    | none => none
    | some n =>
      if c.isDigit then some (n * 10 + (c.toNat - '0'.toNat)) else none)
    (some 0)

/-- Python `int(str)` on a decimal integer literal with an optional
sign. -/
def pyIntOfString (s : String) : Option Int :=
  match s.toList with
  | '-' :: rest => (parseDigits rest).map (fun n => -(n : Int))
  | '+' :: rest => (parseDigits rest).map (fun n => (n : Int))
  | cs => (parseDigits cs).map (fun n => (n : Int))

/-- Python `int(value)`: identity on integers, `True`/`False` become 1/0,
strings are parsed as integer literals (raising `ValueError` otherwise),
and `None`/objects raise `TypeError`. -/
def pyInt : Value → Except String Value
  | .vint n => .ok (.vint n)
  | .vbool b => .ok (.vint (if b then 1 else 0))
  | .vstr s =>
    match pyIntOfString s with
    | some n => .ok (.vint n)
    | none => .error "ValueError: invalid literal for int()"
  | .vnone => .error "TypeError: int() argument must not be None"
  | .vpixbuf _ _ => .error "TypeError: int() argument"

section AList

variable {α β : Type} [DecidableEq α]

/-- Association-list lookup, modelling Python `dict.get`. -/
def alistLookup : List (α × β) → α → Option β
  | [], _ => none
  | kv :: rest, k => if kv.1 = k then some kv.2 else alistLookup rest k

/-- Association-list key removal, modelling `dict.pop(k, None)` /
`del d[k]`. -/
def alistErase : List (α × β) → α → List (α × β)
  | [], _ => []
  | kv :: rest, k =>
    if kv.1 = k then alistErase rest k else kv :: alistErase rest k

/-- Association-list insertion/overwrite, modelling `d[k] = v`. -/
def alistInsert (l : List (α × β)) (k : α) (v : β) : List (α × β) :=
  (k, v) :: alistErase l k

end AList

/-- A row/record node of the displayed hierarchy.

Modelled from the spec: the `Record / Row` container of §3 (the concrete
`datagrid_gtk3.db.sqlite.Node` class is not part of the given source).  A
node carries an ordered `data` tuple, a structural `path`, the
`childrenLoaded` flag backing `is_children_loaded()`, and the ordered list
of currently resident children.  Freshly loaded records arrive from the
data source with unconstrained `path` values; the model reassigns paths on
(re)insertion. -/
inductive Node where
  | mk (data : List Value) (path : List Nat) (childrenLoaded : Bool)
      (children : List Node)

/-- The node's data tuple. -/
def Node.data : Node → List Value
  | .mk d _ _ _ => d

/-- The node's structural path. -/
def Node.path : Node → List Nat
  | .mk _ p _ _ => p

/-- The node's non-recursive `is_children_loaded()` flag. -/
def Node.childrenLoaded : Node → Bool
  | .mk _ _ b _ => b

/-- The node's resident children, in order. -/
def Node.children : Node → List Node
  | .mk _ _ _ cs => cs

/-- Replace the node's path (`row.path = ...`). -/
def Node.withPath (n : Node) (p : List Nat) : Node :=
  .mk n.data p n.childrenLoaded n.children

/-- Append further children to the node (`parent_row.append(row)` over a
batch of loaded rows). -/
def Node.appendChildren (n : Node) (rows : List Node) : Node :=
  .mk n.data n.path n.childrenLoaded (n.children ++ rows)

/-- Overwrite one slot of the node's data tuple
(`row.data[column] = value`). -/
def Node.setData (n : Node) (column : Nat) (v : Value) : Node :=
  .mk (n.data.set column v) n.path n.childrenLoaded n.children

/-- Pure positional lookup of a node by path, mirroring the index chain of
`DataGridModel._get_row_by_path` without its load side effect. -/
def Node.getByPath : Node → List Nat → Option Node
  | _, [] => none
  | n, i :: rest =>
    match n.children[i]? with
    | none => none
    | some c => if rest.isEmpty then some c else c.getByPath rest

/-- Rewrite the node found at `path` through `f`, leaving the tree
unchanged when the path does not resolve. -/
def Node.modifyAtPath : Node → List Nat → (Node → Node) → Node
  | n, [], _ => n
  | n, i :: rest, f =>
    match n.children[i]? with
    | none => n
    | some c =>
      .mk n.data n.path n.childrenLoaded
        (n.children.set i
          (if rest.isEmpty then f c else c.modifyAtPath rest f))

/-- A filter-clause parameter: a `(start, end)` pair for `range` clauses,
free text for search/`=` clauses, or a plain value. -/
inductive CParam where
  | range (lo hi : Int)
  | txt (s : String)
  | val (v : Value)
deriving DecidableEq, Repr

/-- A `where`/`search` clause of shape `{operator, param}`. -/
structure Clause where
  operator : String
  param : CParam
deriving DecidableEq, Repr

/-- The model's mutable "active query parameters" mapping.  `page` and
`parentId` are `Option`s because the corresponding Python keys may be
absent from the dict; a present `parentId` may itself hold `Value.vnone`
(`active_params['parent_id'] = None` for root pagination).  `whereMap` is
the optional `where` sub-dict. -/
structure Params where
  flat : Bool
  page : Option Nat
  parentId : Option Value
  whereMap : Option (List (String × Clause))
  orderBy : Option String
  desc : Bool
deriving DecidableEq, Repr

/-- Column metadata (the fields the embedded operations consult). -/
structure Column where
  name : String
  transform : Option String
deriving DecidableEq, Repr

/-- The external paginated/hierarchical data source, by contract (§6).
`load` returns a container node whose children are the loaded rows;
`idColumnIdx`, `parentColumnIdx`, `flatColumnIdx` and `totalRecs` are the
values the source makes available after a load.  `config` is the optional
per-column extra options list (an entry is the column's
`encoding_options`, if any). -/
structure DataSource where
  load : Params → Node
  idColumnIdx : Option Nat
  parentColumnIdx : Option Nat
  flatColumnIdx : Option Nat
  totalRecs : Nat
  config : List (Option String)

/-- The state of `DataGridModel` that the embedded operations read and
write. -/
structure DataGridModel where
  activeParams : Params
  rowIdMapper : List (Value × Node)
  columns : List Column
  idColumnIdx : Option Nat
  parentColumnIdx : Option Nat
  flatColumnIdx : Option Nat
  rows : Node
  totalRecs : Option Nat
  imageMaxSize : Nat
  imageDrawBorder : Bool

/-- Walk a batch of freshly loaded rows, assigning the paths
`prefixPath + (off + i,)` and registering
`row_id_mapper[row.data[id_column_idx]] = row` for each; fails with the
interpreter's `IndexError` when a row's data tuple does not reach the id
column.  `refresh` uses it with an empty prefix and offset 0
(`row.path = (i,)`); `add_rows` with the parent row's path and its
computed offset. -/
def appendLoadedRows (idIdx : Nat) (prefixPath : List Nat) :
    Nat → List Node → List (Value × Node) →
    Except String (List Node × List (Value × Node))
  | _, [], mapper => .ok ([], mapper)
  | off, row :: rest, mapper =>
    let row := row.withPath (prefixPath ++ [off])
    match row.data[idIdx]? with
    | none => .error "IndexError: row data has no id column slot"
    | some idVal =>
      match appendLoadedRows idIdx prefixPath (off + 1) rest
          (alistInsert mapper idVal row) with
      | .error e => .error e
      | .ok (rest', mapper') => .ok (row :: rest', mapper')

/-- `DataGridModel.refresh`: drop `page`/`parent_id`, clear the row-id
index, reload the root collection from the data source, re-derive the
id/parent/flat column indices and `total_recs`, assign sequential root
paths and repopulate the index when an id column exists, and emit
`data-loaded` with the total record count (returned alongside the new
state). -/
def DataGridModel.refresh (ds : DataSource) (m : DataGridModel) :
    Except String (DataGridModel × Nat) :=
  let params := { m.activeParams with page := none, parentId := none }
  let rows := (ds.load params).withPath []
  let m' := { m with
    activeParams := params
    rowIdMapper := []
    idColumnIdx := ds.idColumnIdx
    parentColumnIdx := ds.parentColumnIdx
    flatColumnIdx := ds.flatColumnIdx
    totalRecs := some ds.totalRecs }
  match ds.idColumnIdx with
  | none => .ok ({ m' with rows := rows }, ds.totalRecs)
  | some k =>
    match appendLoadedRows k [] 0 rows.children [] with
    | .error e => .error e
    | .ok (children', mapper') =>
      .ok ({ m' with
        rows := .mk rows.data rows.path rows.childrenLoaded children'
        rowIdMapper := mapper' }, ds.totalRecs)

/-- A query-parameter assignment performed by `add_rows`; kept as a trace
so frame-effect statements can talk about which keys were written. -/
inductive ParamWrite where
  | setPage (n : Nat)
  | setParentId (v : Value)
deriving DecidableEq, Repr

/-- The preparation phase of `DataGridModel.add_rows`: determine the
target parent, the `parent_id` value, the child path offset and the
updated query parameters.  Returns
`(parentId, parent path prefix, path offset, params, writes)` where the
prefix is the `parent_row.path` the new children's paths are built from,
and the parent path is `none` for root pagination. -/
def addRowsPrep (m : DataGridModel) (parentPath : Option (List Nat)) :
    Except String
      (Value × Option (List Nat) × List Nat × Nat × Params ×
        List ParamWrite) :=
  match parentPath with
  | none =>
    -- path_offset = self.rows[-1].path[-1] + 1
    match m.rows.children.getLast? with
    | none => .error "IndexError: list index out of range"
    | some last =>
      match last.path.getLast? with
      | none => .error "IndexError: tuple index out of range"
      | some lastIdx =>
        -- self.active_params['page'] =
        --   self.active_params.get('page', 0) + 1
        let newPage := (m.activeParams.page.getD 0) + 1
        let params := { m.activeParams with
          page := some newPage, parentId := some .vnone }
        .ok (.vnone, none, m.rows.path, lastIdx + 1, params,
          [.setPage newPage, .setParentId .vnone])
  | some pp =>
    match m.rows.getByPath pp with
    | none => .error "IndexError: invalid parent path"
    | some parent =>
      -- parent_id = parent_node.data[self.id_column_idx]
      match m.idColumnIdx with
      | none => .error "TypeError: list indices must be integers"
      | some k =>
        match parent.data[k]? with
        | none => .error "IndexError: row data has no id column slot"
        | some pid =>
          let params := { m.activeParams with parentId := some pid }
          .ok (pid, some pp, parent.path, 0, params, [.setParentId pid])

/-- `DataGridModel.add_rows`: in hierarchical display with no parent node
this is a no-op returning `False`; otherwise the query parameters are
updated (page advance for root pagination, `parent_id` always), the data
source is asked for more rows, and either nothing changes (`False`, zero
rows) or every returned row is appended under the target parent and
registered in the row-id index (`True`).  The `row_inserted` toolkit
notifications of the non-hierarchical case carry no model state and are
not represented.  Returns `(changed, state, parameter writes)`. -/
def DataGridModel.addRows (ds : DataSource) (m : DataGridModel)
    (parentPath : Option (List Nat) := none) :
    Except String (Bool × DataGridModel × List ParamWrite) :=
  let isTree := m.parentColumnIdx.isSome && !m.activeParams.flat
  if isTree && parentPath.isNone then
    .ok (false, m, [])
  else
    match addRowsPrep m parentPath with
    | .error e => .error e
    | .ok (_, parentPath', pfx, pathOffset, params, writes) =>
      let loaded := ds.load params
      let m₁ := { m with activeParams := params }
      if loaded.children.isEmpty then
        .ok (false, m₁, writes)
      else
        match m.idColumnIdx with
        | none => .error "TypeError: list indices must be integers"
        | some k =>
          match appendLoadedRows k pfx pathOffset loaded.children
              m₁.rowIdMapper with
          | .error e => .error e
          | .ok (newRows, mapper') =>
            let rows' := match parentPath' with
              | none => m₁.rows.appendChildren newRows
              | some pp => m₁.rows.modifyAtPath pp (·.appendChildren newRows)
            .ok (true, { m₁ with rows := rows', rowIdMapper := mapper' },
              writes)

/-- `DataGridModel._ensure_children_is_loaded`: trigger `add_rows` for the
row when its (non-recursive) children-loaded flag is unset.  `path` is the
row's position in the tree. -/
def DataGridModel.ensureChildrenIsLoaded (ds : DataSource)
    (m : DataGridModel) (path : List Nat) (row : Node) :
    Except String DataGridModel := do
  if row.childrenLoaded then .ok m
  else do
    let (_, m', _) ← m.addRows ds (some path)
    .ok m'

/-- `DataGridModel._get_row_by_path`: positional lookup of a row by its
path tuple, forcing an on-demand child load of the row that is finally
returned.  An empty or dangling path raises `IndexError`. -/
def DataGridModel.getRowByPath (ds : DataSource) (m : DataGridModel)
    (path : List Nat) : Except String (Node × DataGridModel) := do
  match m.rows.getByPath path with
  | none => .error "IndexError: invalid path"
  | some row => do
    let m' ← m.ensureChildrenIsLoaded ds path row
    match m'.rows.getByPath path with
    | none => .error "IndexError: invalid path"
    | some row' => .ok (row', m')

/-- A write-through persistence call recorded from
`DataGridModel.update_data_source` (`data_source.update({column: value},
ids)`): the column name, the new value and the id list. -/
structure UpdateCall where
  column : String
  value : Value
  ids : List Value
deriving DecidableEq, Repr

/-- `DataGridModel.set_value`: write `value` into the row's data tuple at
`column`, then push a single-column update keyed by `int(id_)` — the
row's id value coerced with Python `int()` — to the data source, and
report whether `row_changed` is emitted.  Returns the new state, the
persistence calls issued, and the emission flag. -/
def DataGridModel.setValue (ds : DataSource) (m : DataGridModel)
    (path : List Nat) (column : Nat) (value : Value)
    (emitEvent : Bool := true) :
    Except String (DataGridModel × List UpdateCall × Bool) := do
  let (row, m₁) ← m.getRowByPath ds path
  -- row.data[column] = value
  if column < row.data.length then
    let m₂ := { m₁ with
      rows := m₁.rows.modifyAtPath path (·.setData column value) }
    -- id_ = self.get_value(itr, self.id_column_idx): the id column is
    -- returned raw/unformatted by on_get_value
    let k ← match m₂.idColumnIdx with
      | none => .error "TypeError: column index must be an integer"
      | some k => .ok k
    let (idRow, m₃) ← m₂.getRowByPath ds path
    let idVal ← match idRow.data[k]? with
      | none => .error "IndexError: row data has no id column slot"
      | some v => .ok v
    let pyid ← pyInt idVal
    let colName ← match m₃.columns[column]? with
      | none => .error "IndexError: no such column"
      | some c => .ok c.name
    .ok (m₃, [⟨colName, value, [pyid]⟩], emitEvent)
  else .error "IndexError: data assignment out of range"

/-- The keyword parameters `get_formatted_value` hands to a transformer. -/
structure TKwargs where
  size : Nat := 0
  drawBorder : Bool := false
  borderSize : Nat := 0
  shadowSize : Nat := 0
  shadowOffset : Nat := 0
  maxLength : Nat := 0
  oneline : Bool := false
  options : Option String := none
deriving DecidableEq, Repr

/-- A registered value transformer (`get_transformer(name)`), by contract:
a callable taking the raw value and keyword options. -/
def Transformer : Type := Value → TKwargs → Value

/-- `GRID_LABEL_MAX_LENGTH`. -/
def GRID_LABEL_MAX_LENGTH : Nat := 100

/-- `DataGridModel.IMAGE_BORDER_SIZE`. -/
def DataGridModel.IMAGE_BORDER_SIZE : Nat := 6

/-- `DataGridModel.IMAGE_SHADOW_SIZE`. -/
def DataGridModel.IMAGE_SHADOW_SIZE : Nat := 6

/-- `DataGridModel.IMAGE_SHADOW_OFFSET`. -/
def DataGridModel.IMAGE_SHADOW_OFFSET : Nat := 2

/-- `DataGridModel.get_formatted_value`: resolve the column's transform
(defaulting to `string`), special-case the reserved `__selected` boolean
column to a plain boolean, prepare transform-specific keyword parameters
(image sizes and caches, string/html length limits), merge per-column
`encoding_options`, and apply the transformer.  The per-size placeholder
and fallback caches only memoize values this function computes, so they
are rendered here by their defining expressions: the placeholder is the
1x1 transparent pixbuf scaled to the current size, the off-screen
fallback is the transformer applied to an absent value. -/
def DataGridModel.getFormattedValue
    (getTransformer : String → Option Transformer) (ds : DataSource)
    (m : DataGridModel) (value : Value) (columnIndex : Nat)
    (visible : Bool := true) : Except String Value := do
  let col ← match m.columns[columnIndex]? with
    | none => .error "IndexError: no such column"
    | some c => .ok c
  let transformerName := col.transform.getD "string"
  match getTransformer transformerName with
  | none => .ok value  -- logs a warning and returns the value unchanged
  | some transformer =>
    if transformerName = "boolean" && col.name = "__selected" then
      -- __selected requires a bool value and not a pixbuf
      .ok (.vbool (pyBool value))
    else do
      let kwargs : TKwargs ← do
        if transformerName = "image" then
          .ok { size := m.imageMaxSize
                drawBorder := m.imageDrawBorder
                borderSize := DataGridModel.IMAGE_BORDER_SIZE
                shadowSize := DataGridModel.IMAGE_SHADOW_SIZE
                shadowOffset := DataGridModel.IMAGE_SHADOW_OFFSET }
        else if transformerName = "string" || transformerName = "html" then
          .ok { maxLength := GRID_LABEL_MAX_LENGTH, oneline := true }
        else
          .ok {}
      if transformerName = "image" && !(pyBool value) then
        -- no value: the cached invisible placeholder scaled to size
        .ok (.vpixbuf m.imageMaxSize m.imageMaxSize)
      else if transformerName = "image" && !visible then
        -- cached fallback image: the transformer applied to no value
        -- (this return happens before the config merge in the source)
        .ok (transformer .vnone kwargs)
      else do
        let value ← do
          if transformerName = "image" then
            match value with
            | .vstr s =>
              if s.startsWith "file://" then
                .ok (.vstr (s.drop "file://".length))
              else .ok .vnone
            | _ => .error "AttributeError: value has no attribute startswith"
          else .ok value
        .ok (transformer value (mergeConfig ds columnIndex kwargs))
where
  /-- Merge the data source's per-column `encoding_options` (tolerating a
  shorter `config` list, the `except IndexError` path). -/
  mergeConfig (ds : DataSource) (columnIndex : Nat) (kwargs : TKwargs) :
      TKwargs :=
    if ds.config.isEmpty then kwargs
    else
      match ds.config[columnIndex]? with
      | some (some opts) => { kwargs with options := some opts }
      | _ => kwargs

/-- Split a character list on a separator character; the empty input
yields one empty group, matching Python `str.split(sep)`. -/
def splitChars (sep : Char) : List Char → List (List Char)
  | [] => [[]]
  | ch :: rest =>
    let r := splitChars sep rest
    if ch = sep then [] :: r
    else
      match r with
      | [] => [[ch]]
      | g :: gs => (ch :: g) :: gs

/-- Python `s.split(sep)` for a single-character separator. -/
def pySplit (s : String) (sep : Char) : List String :=
  (splitChars sep s.toList).map (fun cs => String.mk cs)

namespace ImageUtils

/-- The ordered icon-identifier candidate list built by
`get_icon_for_file` from the split mimetype: `"<type>-<subtype>"`,
`"<subtype>"`, `"<type>"`, then `"application-x-<subtype>"` only for type
`application`, then `"<type>-x-generic"`, then `"unknown"`. -/
def getIconList (mimetype details : String) : List String :=
  ([mimetype ++ "-" ++ details, details, mimetype]
    ++ (if mimetype = "application" then ["application-x-" ++ details]
        else []))
    ++ [mimetype ++ "-x-generic", "unknown"]

/-- Mimetype determination in `get_icon_for_file`: directories are
classified `folder/folder`; otherwise `mimetypes.guess_type`'s result
(falling back to `unknown/unknown` when it is undefined) is unpacked by
splitting on `/`, which raises `ValueError` unless it yields exactly two
parts.  `guessedType` stands for `mimetypes.guess_type(filename)[0]`. -/
def guessMimePair (isDir : Bool) (guessedType : Option String) :
    Except String (String × String) :=
  if isDir then .ok ("folder", "folder")
  else
    match pySplit (guessedType.getD "unknown/unknown") '/' with
    | [mimetype, details] => .ok (mimetype, details)
    | _ => .error "ValueError: unpacking mimetype failed"

/-- The candidate list `get_icon_for_file` hands to
`Gtk.IconTheme.choose_icon` for a given file classification. -/
def iconCandidatesForFile (isDir : Bool) (guessedType : Option String) :
    Except String (List String) :=
  match guessMimePair isDir guessedType with
  | .ok (mimetype, details) => .ok (getIconList mimetype details)
  | .error e => .error e

/-- `get_icon_for_file`: resolve the candidate list through the active
icon theme (`theme name size` is `choose_icon`'s per-name resolution to a
filesystem path, already excluding SVG results) and return the filename
of the first candidate the theme satisfies.  When `choose_icon` yields no
icon, the call `icon.get_filename()` is attribute access on an undefined
result and raises. -/
def getIconForFile (theme : String → Nat → Option String) (isDir : Bool)
    (guessedType : Option String) (size : Nat) : Except String String :=
  match iconCandidatesForFile isDir guessedType with
  | .error e => .error e
  | .ok iconList =>
    match iconList.findSome? (fun name => theme name size) with
    | some filename => .ok filename
    | none => .error "AttributeError: NoneType object has no attribute"

/-- An RGBA color. -/
abbrev Color : Type := Nat × Nat × Nat × Nat

/-- A PIL image, embedded as the tree of constructions performed on it:
a fresh canvas, a solid-color rectangle paste, an image paste at an
offset, or one application of the BLUR filter.  `copy()` has no
observable effect in this immutable embedding. -/
inductive PImage where
  | new (w h : Nat) (color : Color)
  | pasteColor (base : PImage) (c : Color) (box : Int × Int × Int × Int)
  | pasteImage (base : PImage) (img : PImage) (pos : Int × Int)
  | blur (i : PImage)
deriving DecidableEq

/-- Pixel width of an image (pastes and blurs keep the base's size). -/
def PImage.width : PImage → Nat
  | .new w _ _ => w
  | .pasteColor b _ _ => b.width
  | .pasteImage b _ _ => b.width
  | .blur i => i.width

/-- Pixel height of an image. -/
def PImage.height : PImage → Nat
  | .new _ h _ => h
  | .pasteColor b _ _ => b.height
  | .pasteImage b _ _ => b.height
  | .blur i => i.height

/-- Apply the BLUR filter `n` times. -/
def applyBlur : Nat → PImage → PImage
  | 0, i => i
  | n + 1, i => applyBlur n i.blur

/-- The `_drop_shadows_cache` key tuple:
`(width, height, iterations, border_size, offset, shadow_color)`. -/
structure DropKey where
  width : Nat
  height : Nat
  iterations : Nat
  borderSize : Nat
  offset : Int × Int
  shadowColor : Color
deriving DecidableEq

/-- The process-wide `_drop_shadows_cache`. -/
abbrev DropCache : Type := List (DropKey × PImage)

/-- The cache key `add_drop_shadow` derives for a call: the canvas is
`image.width + |offset.x| + 2*border` by
`image.height + |offset.y| + 2*border`. -/
def dropShadowKey (image : PImage) (iterations borderSize : Nat)
    (offset : Int × Int) (shadowColor : Color) : DropKey :=
  ⟨image.width + offset.1.natAbs + 2 * borderSize,
   image.height + offset.2.natAbs + 2 * borderSize,
   iterations, borderSize, offset, shadowColor⟩

/-- The blurred-but-not-yet-composited shadow canvas `add_drop_shadow`
renders on a cache miss: a transparent canvas with a solid rectangle of
the shadow color offset by `border + max(offset, 0)` in each axis, with
the image's dimensions, blurred `iterations` times. -/
def renderShadow (image : PImage) (iterations borderSize : Nat)
    (offset : Int × Int) (shadowColor : Color) : PImage :=
  let width := image.width + offset.1.natAbs + 2 * borderSize
  let height := image.height + offset.2.natAbs + 2 * borderSize
  let shadowLft : Int := (borderSize : Int) + max offset.1 0
  let shadowTop : Int := (borderSize : Int) + max offset.2 0
  applyBlur iterations
    (PImage.pasteColor (.new width height (0xff, 0xff, 0xff, 0x00))
      shadowColor
      (shadowLft, shadowTop, shadowLft + (image.width : Int),
        shadowTop + (image.height : Int)))

/-- `add_drop_shadow`: reuse (a copy of) the cached shadow canvas when
the derived key is already cached, otherwise render and cache it; then
paste the original image on top at
`(border - min(offset.x, 0), border - min(offset.y, 0))`.  Returns the
composite, the cache after the call, and how many BLUR applications the
call performed. -/
def addDropShadow (cache : DropCache) (image : PImage)
    (iterations : Nat := 3) (borderSize : Nat := 2)
    (offset : Int × Int := (2, 2))
    (shadowColor : Color := (0x00, 0x00, 0x00, 0xff)) :
    PImage × DropCache × Nat :=
  let key := dropShadowKey image iterations borderSize offset shadowColor
  let imgLft : Int := (borderSize : Int) - min offset.1 0
  let imgTop : Int := (borderSize : Int) - min offset.2 0
  match alistLookup cache key with
  | some existingShadow =>
    (existingShadow.pasteImage image (imgLft, imgTop), cache, 0)
  | none =>
    let shadow := renderShadow image iterations borderSize offset shadowColor
    (shadow.pasteImage image (imgLft, imgTop),
      alistInsert cache key shadow, iterations)

end ImageUtils

namespace DataGridView

/-- `DataGridView.MIN_WIDTH`. -/
def MIN_WIDTH : Nat := 40

/-- `DataGridView.MAX_WIDTH`. -/
def MAX_WIDTH : Nat := 400

/-- `DataGridView.SAMPLE_SIZE`. -/
def SAMPLE_SIZE : Nat := 50

/-- `DataGridView._get_best_column_width` on the measured sample widths:
`labelWidth` is the rendered pixel width of the padded header label,
`lengths` the set of measured sample widths (a measurement failure is
already replaced by the width of the empty string upstream).  Take the
maximum measured width (1 when no sample was measured), clamp below at
`MIN_WIDTH` — widening to label width + 20 when the minimum is narrower
than the label — and clamp above at `MAX_WIDTH`. -/
def getBestColumnWidth (labelWidth : Nat) (lengths : List Nat) : Nat :=
  let maxLength := if lengths.isEmpty then 1 else lengths.foldl max 0
  let width := maxLength
  if width < MIN_WIDTH then
    let width := MIN_WIDTH
    if width < labelWidth then labelWidth + 20 else width
  else if width > MAX_WIDTH then MAX_WIDTH
  else width

end DataGridView

namespace DataGridController

/-- `DataGridController.MIN_TIMESTAMP` (1970). -/
def MIN_TIMESTAMP : Int := 0

/-- `DataGridController.MAX_TIMESTAMP` (2038). -/
def MAX_TIMESTAMP : Int := 2147485547

/-- The parameter-merging part of `DataGridController._refresh_view`:
merge `update_dict` into the active `where` mapping after dropping
`remove_keys`, deleting the whole `where` entry when it ends up empty.
(The subsequent view refresh and expand/collapse button bookkeeping carry
no query-parameter state.) -/
def refreshViewParams (p : Params) (updateDict : List (String × Clause))
    (removeKeys : List String) : Params :=
  let whereDict := p.whereMap.getD []
  let whereDict := removeKeys.foldl (fun acc k => alistErase acc k) whereDict
  let whereDict :=
    updateDict.foldl (fun acc kv => alistInsert acc kv.1 kv.2) whereDict
  if whereDict.isEmpty then { p with whereMap := none }
  else { p with whereMap := some whereDict }

/-- `DataGridController.on_date_change`: read both date entries, resolve
an absent start to `MIN_TIMESTAMP` and an absent end to `MAX_TIMESTAMP`
(present entries get `00:00` / `23:59` appended and go through
`_get_timestamp_from_str`, abstracted as `parseTimestamp`), then refresh
the view with a `range` clause for the selected date column while
removing the clauses of every date-column candidate.  When no date
column is selected (`get_active() < 0`) the local `column` is never
bound and its use raises. -/
def onDateChange (parseTimestamp : String → Int)
    (startDate endDate : String) (dateColumns : List String)
    (activeDateColumn : Int) (p : Params) : Except String Params := do
  let startTimestamp :=
    if startDate ≠ "" then parseTimestamp (startDate ++ " 00:00")
    else MIN_TIMESTAMP
  let endTimestamp :=
    if endDate ≠ "" then parseTimestamp (endDate ++ " 23:59")
    else MAX_TIMESTAMP
  -- clear all params from previous date column range select
  let removeColumns := dateColumns
  if h : 0 ≤ activeDateColumn ∧ activeDateColumn.toNat < dateColumns.length
  then
    let column := dateColumns.get ⟨activeDateColumn.toNat, h.2⟩
    .ok (refreshViewParams p
      [(column, ⟨"range", .range startTimestamp endTimestamp⟩)]
      removeColumns)
  else .error "NameError: local variable column referenced before assignment"

end DataGridController

/-! ### Expand/collapse tracking (`DataGridView`)

`Node.is_children_loaded(recursive=True)` lives in the data source's
`Node` class, outside the given source; it is modelled from the spec as
the children-loaded flag checked across all descendants, and loading is
modelled as steps that extend exactly the nodes whose flag is still
unset (a node whose children are loaded receives no further rows). -/

mutual

/-- Modelled from the spec: `Node.is_children_loaded(recursive=True)` —
the node's own flag together with every descendant's. -/
def Node.isChildrenLoadedRec : Node → Bool
  | .mk _ _ loaded cs => loaded && nodesLoadedRec cs

/-- Recursive children-loaded check over a list of nodes. -/
def nodesLoadedRec : List Node → Bool
  | [] => true
  | c :: cs => c.isChildrenLoadedRec && nodesLoadedRec cs

end

mutual

/-- The id values collected by `DataGridView._get_expandable_ids` once
everything is loaded: `row.data[id_column_idx]` of every row in the
model's depth-first iteration that has at least one child.  (The
interpreter would raise for a row whose data tuple misses the id slot;
well-formed rows always carry it.) -/
def Node.expandableIds (idIdx : Nat) : Node → List Value
  | .mk _ _ _ cs => expandableIdsList idIdx cs

/-- Expandable-id collection over a list of sibling rows. -/
def expandableIdsList (idIdx : Nat) : List Node → List Value
  | [] => []
  | c :: cs =>
    (if c.children.isEmpty then [] else [c.data.getD idIdx .vnone])
      ++ c.expandableIds idIdx ++ expandableIdsList idIdx cs

end

/-- The fully determined expandable-id set of a loaded tree. -/
def expandableSet (idIdx : Nat) (t : Node) : Finset Value :=
  (t.expandableIds idIdx).toFinset

/-- The per-session expand/collapse state a `DataGridView` owns:
the bound model's resident hierarchy, `_expandable_ids`,
`_expanded_ids` and `_all_expanded`. -/
structure ViewState where
  tree : Node
  expandableIdsCache : Finset Value
  expandedIds : Finset Value
  allExpanded : Bool

/-- `DataGridView._get_expandable_ids`: a non-empty cache is returned
as-is; otherwise, while anything is still to load the result is
indeterminate (`None`, not to be confused with an empty set), and once
everything is loaded the cache is populated with the ids of the rows
that have children. -/
def getExpandableIds (idIdx : Nat) (s : ViewState) :
    Option (Finset Value) × ViewState :=
  if s.expandableIdsCache = (∅ : Finset Value) then
    if s.tree.isChildrenLoadedRec then
      let ids := expandableSet idIdx s.tree
      (some ids, { s with expandableIdsCache := ids })
    else (none, s)
  else (some s.expandableIdsCache, s)

/-- `DataGridView._check_all_expanded` (run unblocked): recompute
`_all_expanded` as whether the expanded-id set equals the expandable-id
set, an indeterminate expandable set comparing unequal.  The
`all-expanded` signal carries exactly the stored flag, so emission is
not modelled separately. -/
def checkAllExpanded (idIdx : Nat) (s : ViewState) : ViewState :=
  let (res, s₁) := getExpandableIds idIdx s
  let newAllExpanded :=
    match res with
    | none => false
    | some ids => decide (s₁.expandedIds = ids)
  { s₁ with allExpanded := newAllExpanded }

/-- Modelled from the spec: one on-demand load.  A node whose children
are not yet loaded has its flag set and further rows appended (possibly
none); a node whose children are loaded is never extended. -/
inductive LoadStep : Node → Node → Prop
  | here (data : List Value) (path : List Nat) (cs new : List Node) :
      LoadStep (.mk data path false cs) (.mk data path true (cs ++ new))
  | child (data : List Value) (path : List Nat) (b : Bool)
      (pre post : List Node) (c c' : Node) :
      LoadStep c c' →
      LoadStep (.mk data path b (pre ++ c :: post))
        (.mk data path b (pre ++ c' :: post))

/-- Any number of on-demand loads. -/
def LoadExt : Node → Node → Prop :=
  Relation.ReflTransGen LoadStep

/-- The atomic view transitions: a pure load (scrolling, value lookups),
the `row-expanded` / `row-collapsed` handlers (each ends in
`_check_all_expanded`), the bulk operations `expand_all` /
`collapse_all` (recomputation blocked during the bulk phase, one check
at the end), and `refresh` (fresh model load, `_expandable_ids` cleared,
`_expanded_ids` rebuilt under the guard flag, one final check). -/
inductive Step (idIdx : Nat) : ViewState → ViewState → Prop
  | load (s : ViewState) (t' : Node) :
      LoadExt s.tree t' → Step idIdx s { s with tree := t' }
  | rowExpanded (s : ViewState) (t' : Node) (v : Value) :
      LoadExt s.tree t' →
      Step idIdx s (checkAllExpanded idIdx
        { s with tree := t', expandedIds := insert v s.expandedIds })
  | rowCollapsed (s : ViewState) (t' : Node) (v : Value) :
      LoadExt s.tree t' →
      Step idIdx s (checkAllExpanded idIdx
        { s with tree := t', expandedIds := s.expandedIds.erase v })
  | bulk (s : ViewState) (t' : Node) (e' : Finset Value) :
      LoadExt s.tree t' →
      Step idIdx s (checkAllExpanded idIdx
        { s with tree := t', expandedIds := e' })
  | refresh (s : ViewState) (t' : Node) (e' : Finset Value) :
      Step idIdx s (checkAllExpanded idIdx
        ⟨t', (∅ : Finset Value), e', s.allExpanded⟩)

/-- A freshly constructed view: empty caches, `_all_expanded` false. -/
def ViewInit (s : ViewState) : Prop :=
  s.expandableIdsCache = (∅ : Finset Value) ∧ s.allExpanded = false

/-- The states a view can reach from a freshly constructed one. -/
def ViewReachable (idIdx : Nat) (s : ViewState) : Prop :=
  ∃ s₀, ViewInit s₀ ∧ Relation.ReflTransGen (Step idIdx) s₀ s

/-- The inductive invariant: a true `_all_expanded` or a non-empty
`_expandable_ids` cache both certify that everything is loaded and name
the fully determined expandable set. -/
def ViewInv (idIdx : Nat) (s : ViewState) : Prop :=
  (s.allExpanded = true →
    s.tree.isChildrenLoadedRec = true ∧
    s.expandedIds = expandableSet idIdx s.tree) ∧
  (s.expandableIdsCache ≠ (∅ : Finset Value) →
    s.tree.isChildrenLoadedRec = true ∧
    s.expandableIdsCache = expandableSet idIdx s.tree)

/-! ### Concrete fixtures used by counterexamples and witnesses -/

/-- The query parameters a fresh model starts from
(`{'flat': False}`). -/
def defaultParams : Params :=
  { flat := false, page := none, parentId := none, whereMap := none,
    orderBy := none, desc := false }

/-- A loaded row with the given data and path and no children. -/
def leafRow (data : List Value) (path : List Nat) : Node :=
  .mk data path true []

/-- A freshly constructed model bound to no meaningful data yet. -/
def emptyModel : DataGridModel :=
  { activeParams := defaultParams, rowIdMapper := [], columns := [],
    idColumnIdx := none, parentColumnIdx := none, flatColumnIdx := none,
    rows := .mk [] [] true [], totalRecs := none, imageMaxSize := 24,
    imageDrawBorder := false }

/-- A data source defining no id column whose load yields one row that
arrives carrying path `(5,)`. -/
def dsNoId : DataSource :=
  { load := fun _ => .mk [] [] true [leafRow [.vint 7] [5]],
    idColumnIdx := none, parentColumnIdx := none, flatColumnIdx := none,
    totalRecs := 1, config := [] }

/-- A data source with an id column at position 0 whose load yields two
rows with scrambled incoming paths. -/
def dsWithId : DataSource :=
  { load := fun _ => .mk [] [] true
      [leafRow [.vint 10] [9], leafRow [.vint 20] [9]],
    idColumnIdx := some 0, parentColumnIdx := none, flatColumnIdx := none,
    totalRecs := 2, config := [] }

/-- A data source with an id column whose load always yields exactly one
row. -/
def dsOneRow : DataSource :=
  { load := fun _ => .mk [] [] true [leafRow [.vint 1] []],
    idColumnIdx := some 0, parentColumnIdx := none, flatColumnIdx := none,
    totalRecs := 1, config := [] }

/-- A data source that never yields further rows. -/
def dsEmptyLoad : DataSource :=
  { load := fun _ => .mk [] [] true [], idColumnIdx := some 0,
    parentColumnIdx := some 1, flatColumnIdx := none, totalRecs := 0,
    config := [] }

/-- A non-hierarchical model holding one loaded root row with id 1. -/
def mFlat : DataGridModel :=
  { emptyModel with
    idColumnIdx := some 0
    rows := .mk [] [] true [leafRow [.vint 1] [0]] }

/-- A hierarchical model (parent column present, flat off) whose single
root row has not loaded its children yet. -/
def mTree : DataGridModel :=
  { emptyModel with
    idColumnIdx := some 0
    parentColumnIdx := some 1
    rows := .mk [] [] true [Node.mk [.vint 1] [0] false []] }

/-- A transformer registry knowing only the `boolean` transformer. -/
def regBoolean : String → Option Transformer :=
  fun name => if name = "boolean" then some (fun v _ => v) else none

/-- A model with the reserved `__selected` boolean column at position 0
and a string-typed id column at position 1; its single loaded row has the
non-numeric id `"abc"`. -/
def mSel : DataGridModel :=
  { emptyModel with
    columns := [⟨"__selected", some "boolean"⟩, ⟨"id", none⟩]
    idColumnIdx := some 1
    rows := .mk [] [] true
      [Node.mk [.vbool false, .vstr "abc"] [0] true []] }

/-- The same model with an integer id. -/
def mSelInt : DataGridModel :=
  { emptyModel with
    columns := [⟨"__selected", some "boolean"⟩, ⟨"id", none⟩]
    idColumnIdx := some 1
    rows := .mk [] [] true
      [Node.mk [.vbool false, .vint 7] [0] true []] }

/-! ## Theorems -/

section AListLemmas

variable {α β : Type} [DecidableEq α]

theorem alistLookup_insert_self (l : List (α × β)) (k : α) (v : β) :
    alistLookup (alistInsert l k v) k = some v := by
  simp [alistLookup, alistInsert]

theorem alistLookup_erase_self (l : List (α × β)) (k : α) :
    alistLookup (alistErase l k) k = none := by
  induction l with
  | nil => simp [alistLookup, alistErase]
  | cons kv rest ih =>
    by_cases h : kv.1 = k
    · simpa [alistErase, h] using ih
    · simpa [alistLookup, alistErase, h] using ih

theorem alistLookup_erase_ne (l : List (α × β)) (k k' : α) (h : k' ≠ k) :
    alistLookup (alistErase l k) k' = alistLookup l k' := by
  induction l with
  | nil => simp [alistErase]
  | cons kv rest ih =>
    by_cases hk : kv.1 = k
    · have hne : ¬(k = k') := fun hc => h hc.symm
      simpa [alistLookup, alistErase, hk, hne] using ih
    · by_cases hk' : kv.1 = k'
      · simp [alistLookup, alistErase, hk, hk', h]
      · simpa [alistLookup, alistErase, hk, hk'] using ih

theorem alistLookup_insert_ne (l : List (α × β)) (k k' : α) (v : β)
    (h : k' ≠ k) :
    alistLookup (alistInsert l k v) k' = alistLookup l k' := by
  rw [alistInsert]
  have : alistLookup ((k, v) :: alistErase l k) k' =
      alistLookup (alistErase l k) k' := by
    simp [alistLookup, Ne.symm h]
  rw [this, alistLookup_erase_ne l k k' h]

theorem alistLookup_foldl_erase (keys : List α) (w : List (α × β)) (k : α) :
    alistLookup (keys.foldl (fun acc kk => alistErase acc kk) w) k =
      if k ∈ keys then none else alistLookup w k := by
  induction keys generalizing w with
  | nil => simp
  | cons kk rest ih =>
    simp only [List.foldl_cons]
    rw [ih]
    by_cases hmem : k ∈ rest
    · simp [hmem]
    · by_cases hk : k = kk
      · subst hk
        simp [hmem, alistLookup_erase_self]
      · simp [hmem, hk, alistLookup_erase_ne _ _ _ hk]

end AListLemmas

@[simp]
theorem Node.data_mk (d : List Value) (p : List Nat) (b : Bool)
    (cs : List Node) : (Node.mk d p b cs).data = d := rfl

@[simp]
theorem Node.path_mk (d : List Value) (p : List Nat) (b : Bool)
    (cs : List Node) : (Node.mk d p b cs).path = p := rfl

@[simp]
theorem Node.childrenLoaded_mk (d : List Value) (p : List Nat) (b : Bool)
    (cs : List Node) : (Node.mk d p b cs).childrenLoaded = b := rfl

@[simp]
theorem Node.children_mk (d : List Value) (p : List Nat) (b : Bool)
    (cs : List Node) : (Node.mk d p b cs).children = cs := rfl

@[simp]
theorem Node.data_withPath (n : Node) (p : List Nat) :
    (n.withPath p).data = n.data := by cases n; rfl

@[simp]
theorem Node.path_withPath (n : Node) (p : List Nat) :
    (n.withPath p).path = p := by cases n; rfl

@[simp]
theorem Node.childrenLoaded_withPath (n : Node) (p : List Nat) :
    (n.withPath p).childrenLoaded = n.childrenLoaded := by cases n; rfl

@[simp]
theorem Node.children_withPath (n : Node) (p : List Nat) :
    (n.withPath p).children = n.children := by cases n; rfl

@[simp]
theorem Node.children_appendChildren (n : Node) (rows : List Node) :
    (n.appendChildren rows).children = n.children ++ rows := by
  cases n; rfl

@[simp]
theorem Node.data_appendChildren (n : Node) (rows : List Node) :
    (n.appendChildren rows).data = n.data := by cases n; rfl

/-- The complete behaviour of `appendLoadedRows` on rows whose data
reaches the id column: it succeeds, assigns the consecutive paths
`prefixPath ++ [off + j]` while leaving everything else about each row
unchanged, touches no index entry other than the loaded rows' id values,
and — when those id values are pairwise distinct — registers every
appended row under its id value. -/
theorem appendLoadedRows_spec (k : Nat) (pfx : List Nat) :
    ∀ (rows : List Node) (off : Nat) (mapper : List (Value × Node)),
    (∀ r ∈ rows, k < r.data.length) →
    ∃ rows' mapper',
      appendLoadedRows k pfx off rows mapper = .ok (rows', mapper') ∧
      rows'.length = rows.length ∧
      (∀ j r', rows'[j]? = some r' →
        r'.path = pfx ++ [off + j] ∧
        ∃ r, rows[j]? = some r ∧ r'.data = r.data ∧
          r'.childrenLoaded = r.childrenLoaded ∧
          r'.children = r.children) ∧
      (∀ key, key ∉ rows.map (fun r => r.data.getD k .vnone) →
        alistLookup mapper' key = alistLookup mapper key) ∧
      ((rows.map (fun r => r.data.getD k .vnone)).Nodup →
        ∀ r' ∈ rows',
          alistLookup mapper' (r'.data.getD k .vnone) = some r') := by
  intro rows
  induction rows with
  | nil =>
    intro off mapper _
    refine ⟨[], mapper, rfl, rfl, ?_, ?_, ?_⟩
    · intro j r' h; simp at h
    · intro key _; rfl
    · intro _ r' h; simp at h
  | cons r rest ih =>
    intro off mapper hlen
    have hk : k < r.data.length := hlen r (by simp)
    have hget : r.data[k]? = some (r.data.getD k .vnone) := by
      rw [List.getD_eq_getElem?_getD]
      cases hv : r.data[k]? with
      | none => exact absurd (List.getElem?_eq_none_iff.mp hv) (by omega)
      | some v => rfl
    set row₀ := r.withPath (pfx ++ [off]) with hrow₀
    have hgetrow : row₀.data[k]? = some (r.data.getD k .vnone) := by
      rw [hrow₀]; simpa using hget
    obtain ⟨rest', mapper', heq, hlength, hpaths, hframe, hreg⟩ :=
      ih (off + 1)
        (alistInsert mapper (r.data.getD k .vnone) row₀)
        (fun r hr => hlen r (by simp [hr]))
    refine ⟨row₀ :: rest', mapper', ?_, by simpa using hlength, ?_, ?_, ?_⟩
    · simp only [appendLoadedRows, ← hrow₀, hgetrow, heq]
    · intro j r' hj
      match j with
      | 0 =>
        simp only [List.getElem?_cons_zero, Option.some.injEq] at hj
        subst hj
        refine ⟨by simp [hrow₀], r, by simp, by simp [hrow₀],
          by simp [hrow₀], by simp [hrow₀]⟩
      | j' + 1 =>
        simp only [List.getElem?_cons_succ] at hj
        obtain ⟨hpath, rr, hrr, hdata, hloaded, hchildren⟩ :=
          hpaths j' r' hj
        have : off + 1 + j' = off + (j' + 1) := by omega
        refine ⟨by rw [hpath, this], rr, by simpa using hrr, hdata,
          hloaded, hchildren⟩
    · intro key hkey
      simp only [List.map_cons, List.mem_cons, not_or] at hkey
      rw [hframe key hkey.2, alistLookup_insert_ne _ _ _ _ hkey.1]
    · intro hnodup r' hr'
      simp only [List.map_cons, List.nodup_cons] at hnodup
      rcases List.mem_cons.mp hr' with hr' | hr'
      · subst hr'
        have hid : row₀.data.getD k .vnone = r.data.getD k .vnone := by
          simp [hrow₀]
        rw [hid, hframe _ hnodup.1, alistLookup_insert_self]
      · exact hreg hnodup.2 r' hr'

/-- Modifying the node a path resolves to keeps it resolvable and applies
exactly the modification. -/
theorem getByPath_modifyAtPath (f : Node → Node) :
    ∀ (pp : List Nat) (t parent : Node), t.getByPath pp = some parent →
    (t.modifyAtPath pp f).getByPath pp = some (f parent) := by
  intro pp
  induction pp with
  | nil => intro t parent h; simp [Node.getByPath] at h
  | cons i rest ih =>
    intro t parent h
    cases hc : t.children[i]? with
    | none => simp [Node.getByPath, hc] at h
    | some c =>
      have hlt : i < t.children.length := by
        by_contra hge
        rw [List.getElem?_eq_none_iff.mpr (by omega)] at hc
        exact absurd hc (by simp)
      cases rest with
      | nil =>
        simp only [Node.getByPath, hc, List.isEmpty_nil, if_true] at h
        cases h
        simp only [Node.modifyAtPath, hc, Node.getByPath, Node.children_mk,
          List.isEmpty_nil, if_true, List.getElem?_set_eq_of_lt _ hlt]
      | cons q qs =>
        simp only [Node.getByPath, hc, List.isEmpty_cons,
          Bool.false_eq_true, if_false] at h
        simp only [Node.modifyAtPath, hc, Node.getByPath, Node.children_mk,
          List.isEmpty_cons, Bool.false_eq_true, if_false,
          List.getElem?_set_eq_of_lt _ hlt]
        exact ih c parent h

theorem nodesLoadedRec_append (l₁ l₂ : List Node) :
    nodesLoadedRec (l₁ ++ l₂) = (nodesLoadedRec l₁ && nodesLoadedRec l₂) := by
  induction l₁ with
  | nil => simp [nodesLoadedRec]
  | cons c cs ih => simp [nodesLoadedRec, ih, Bool.and_assoc]

theorem loadStep_not_loaded {t t' : Node} (h : LoadStep t t') :
    t.isChildrenLoadedRec = false := by
  induction h with
  | here data path cs new => simp [Node.isChildrenLoadedRec]
  | child data path b pre post c c' hstep ih =>
    by_cases hb : b
    · subst hb
      simp only [Node.isChildrenLoadedRec, nodesLoadedRec_append,
        nodesLoadedRec, ih, Bool.true_and, Bool.false_and, Bool.and_false]
    · simp [Node.isChildrenLoadedRec, hb]

theorem loadExt_of_loaded {t t' : Node} (hl : t.isChildrenLoadedRec = true)
    (h : LoadExt t t') : t' = t := by
  induction h with
  | refl => rfl
  | tail _ hstep ih =>
    have := loadStep_not_loaded hstep
    rw [ih] at this
    rw [hl] at this
    exact absurd this (by simp)

theorem checkAllExpanded_inv (idIdx : Nat) (s : ViewState)
    (hc : s.expandableIdsCache ≠ (∅ : Finset Value) →
      s.tree.isChildrenLoadedRec = true ∧
      s.expandableIdsCache = expandableSet idIdx s.tree) :
    ViewInv idIdx (checkAllExpanded idIdx s) := by
  by_cases h₀ : s.expandableIdsCache = (∅ : Finset Value)
  · by_cases h₁ : s.tree.isChildrenLoadedRec = true
    · have hs : checkAllExpanded idIdx s =
          { s with expandableIdsCache := expandableSet idIdx s.tree,
                   allExpanded :=
                     decide (s.expandedIds = expandableSet idIdx s.tree) } := by
        simp [checkAllExpanded, getExpandableIds, h₀, h₁]
      rw [hs]
      constructor
      · intro ha
        simp only [decide_eq_true_eq] at ha
        exact ⟨h₁, ha⟩
      · intro _
        exact ⟨h₁, rfl⟩
    · have h₁' : s.tree.isChildrenLoadedRec = false := by
        simpa using h₁
      have hs : checkAllExpanded idIdx s = { s with allExpanded := false } := by
        simp [checkAllExpanded, getExpandableIds, h₀, h₁']
      rw [hs]
      constructor
      · intro ha
        simp at ha
      · intro hne
        exact absurd h₀ hne
  · obtain ⟨hl, hset⟩ := hc h₀
    have hs : checkAllExpanded idIdx s =
        { s with allExpanded :=
            decide (s.expandedIds = s.expandableIdsCache) } := by
      simp [checkAllExpanded, getExpandableIds, h₀]
    rw [hs]
    constructor
    · intro ha
      simp only [decide_eq_true_eq] at ha
      exact ⟨hl, ha.trans hset⟩
    · intro _
      exact ⟨hl, hset⟩

theorem viewStep_inv {idIdx : Nat} {s s' : ViewState}
    (hinv : ViewInv idIdx s) (hstep : Step idIdx s s') :
    ViewInv idIdx s' := by
  cases hstep with
  | load t' hext =>
    constructor
    · intro ha
      obtain ⟨hl, he⟩ := hinv.1 ha
      have := loadExt_of_loaded hl hext
      subst this
      exact ⟨hl, he⟩
    · intro hne
      obtain ⟨hl, he⟩ := hinv.2 hne
      have := loadExt_of_loaded hl hext
      subst this
      exact ⟨hl, he⟩
  | rowExpanded t' v hext =>
    refine checkAllExpanded_inv idIdx _ ?_
    intro hne
    obtain ⟨hl, he⟩ := hinv.2 hne
    have := loadExt_of_loaded hl hext
    subst this
    exact ⟨hl, he⟩
  | rowCollapsed t' v hext =>
    refine checkAllExpanded_inv idIdx _ ?_
    intro hne
    obtain ⟨hl, he⟩ := hinv.2 hne
    have := loadExt_of_loaded hl hext
    subst this
    exact ⟨hl, he⟩
  | bulk t' e' hext =>
    refine checkAllExpanded_inv idIdx _ ?_
    intro hne
    obtain ⟨hl, he⟩ := hinv.2 hne
    have := loadExt_of_loaded hl hext
    subst this
    exact ⟨hl, he⟩
  | refresh t' e' =>
    refine checkAllExpanded_inv idIdx _ ?_
    intro hne
    exact absurd rfl hne

theorem viewInv_of_reachable {idIdx : Nat} {s : ViewState}
    (h : ViewReachable idIdx s) : ViewInv idIdx s := by
  obtain ⟨s₀, ⟨hcache, hall⟩, hsteps⟩ := h
  induction hsteps with
  | refl =>
    constructor
    · intro ha; rw [hall] at ha; exact absurd ha (by simp)
    · intro hne; exact absurd hcache hne
  | tail _ hstep ih => exact viewStep_inv ih hstep

/-- C7: the drop-shadow cache is keyed by
`(width, height, iterations, border, offset, color)` with
`width = image.width + |offset.x| + 2*border` (and the analogue for
height).  A first call on an uncached key applies the blur `iterations`
times and caches the blurred pre-composite; a second call with an
identical derived key applies no blur and composites the second image
onto (a copy of) the cached canvas; and any call whose key differs in at
least one component (and was not previously cached) performs a fresh
blur computation and caches its own entry. -/
theorem C7_drop_shadow_cache (cache : ImageUtils.DropCache)
    (img img₂ : ImageUtils.PImage) (iterations borderSize : Nat)
    (offset : Int × Int) (color : ImageUtils.Color)
    (hmiss : alistLookup cache
      (ImageUtils.dropShadowKey img iterations borderSize offset color) =
        none)
    (hw : img₂.width = img.width) (hh : img₂.height = img.height) :
    (ImageUtils.addDropShadow cache img iterations borderSize offset
      color).2.2 = iterations ∧
    (ImageUtils.addDropShadow cache img iterations borderSize offset
      color).2.1 =
      alistInsert cache
        (ImageUtils.dropShadowKey img iterations borderSize offset color)
        (ImageUtils.renderShadow img iterations borderSize offset color) ∧
    (ImageUtils.addDropShadow
      (alistInsert cache
        (ImageUtils.dropShadowKey img iterations borderSize offset color)
        (ImageUtils.renderShadow img iterations borderSize offset color))
      img₂ iterations borderSize offset color) =
      ((ImageUtils.renderShadow img iterations borderSize offset
        color).pasteImage img₂
        ((borderSize : Int) - min offset.1 0,
          (borderSize : Int) - min offset.2 0),
       alistInsert cache
        (ImageUtils.dropShadowKey img iterations borderSize offset color)
        (ImageUtils.renderShadow img iterations borderSize offset color),
       0) ∧
    (∀ (img₃ : ImageUtils.PImage) (iter₃ border₃ : Nat)
      (off₃ : Int × Int) (col₃ : ImageUtils.Color),
      ImageUtils.dropShadowKey img₃ iter₃ border₃ off₃ col₃ ≠
        ImageUtils.dropShadowKey img iterations borderSize offset color →
      alistLookup cache
        (ImageUtils.dropShadowKey img₃ iter₃ border₃ off₃ col₃) = none →
      (ImageUtils.addDropShadow
        (alistInsert cache
          (ImageUtils.dropShadowKey img iterations borderSize offset color)
          (ImageUtils.renderShadow img iterations borderSize offset color))
        img₃ iter₃ border₃ off₃ col₃).2.2 = iter₃ ∧
      alistLookup (ImageUtils.addDropShadow
          (alistInsert cache
            (ImageUtils.dropShadowKey img iterations borderSize offset
              color)
            (ImageUtils.renderShadow img iterations borderSize offset
              color))
          img₃ iter₃ border₃ off₃ col₃).2.1
        (ImageUtils.dropShadowKey img₃ iter₃ border₃ off₃ col₃) =
        some (ImageUtils.renderShadow img₃ iter₃ border₃ off₃ col₃)) := by
  have hkey₂ : ImageUtils.dropShadowKey img₂ iterations borderSize offset
      color =
      ImageUtils.dropShadowKey img iterations borderSize offset color := by
    simp [ImageUtils.dropShadowKey, hw, hh]
  have hfirst : ImageUtils.addDropShadow cache img iterations borderSize
      offset color =
      ((ImageUtils.renderShadow img iterations borderSize offset
        color).pasteImage img
        ((borderSize : Int) - min offset.1 0,
          (borderSize : Int) - min offset.2 0),
       alistInsert cache
        (ImageUtils.dropShadowKey img iterations borderSize offset color)
        (ImageUtils.renderShadow img iterations borderSize offset color),
       iterations) := by
    simp only [ImageUtils.addDropShadow, hmiss]
  have hhit : alistLookup
      (alistInsert cache
        (ImageUtils.dropShadowKey img iterations borderSize offset color)
        (ImageUtils.renderShadow img iterations borderSize offset color))
      (ImageUtils.dropShadowKey img₂ iterations borderSize offset color) =
      some (ImageUtils.renderShadow img iterations borderSize offset
        color) := by
    rw [hkey₂]
    exact alistLookup_insert_self _ _ _
  refine ⟨by rw [hfirst], by rw [hfirst], ?_, ?_⟩
  · simp only [ImageUtils.addDropShadow, hhit]
  · intro img₃ iter₃ border₃ off₃ col₃ hne hmiss₃
    have hmiss₃' : alistLookup
        (alistInsert cache
          (ImageUtils.dropShadowKey img iterations borderSize offset color)
          (ImageUtils.renderShadow img iterations borderSize offset color))
        (ImageUtils.dropShadowKey img₃ iter₃ border₃ off₃ col₃) = none := by
      rw [alistLookup_insert_ne _ _ _ _ hne]
      exact hmiss₃
    constructor
    · simp only [ImageUtils.addDropShadow, hmiss₃']
    · simp only [ImageUtils.addDropShadow, hmiss₃']
      exact alistLookup_insert_self _ _ _

/-- Witness for C7: on an empty cache and a 1x1 image with the default
parameters, the first call blurs three times, the identical second call
blurs zero times, and a call with the offset changed to (3, 2) blurs
afresh and caches its own entry. -/
theorem C7_drop_shadow_cache_witness :
    (ImageUtils.addDropShadow [] (.new 1 1 (0, 0, 0, 0xff)) 3 2 (2, 2)
      (0, 0, 0, 0xff)).2.2 = 3 ∧
    (ImageUtils.addDropShadow
      (ImageUtils.addDropShadow [] (.new 1 1 (0, 0, 0, 0xff)) 3 2 (2, 2)
        (0, 0, 0, 0xff)).2.1
      (.new 1 1 (0, 0, 0, 0xff)) 3 2 (2, 2) (0, 0, 0, 0xff)).2.2 = 0 ∧
    (ImageUtils.addDropShadow
      (ImageUtils.addDropShadow [] (.new 1 1 (0, 0, 0, 0xff)) 3 2 (2, 2)
        (0, 0, 0, 0xff)).2.1
      (.new 1 1 (0, 0, 0, 0xff)) 3 2 (3, 2) (0, 0, 0, 0xff)).2.2 = 3 := by
  obtain ⟨h₁, hcache, hsecond, hfresh⟩ :=
    C7_drop_shadow_cache [] (.new 1 1 (0, 0, 0, 0xff))
      (.new 1 1 (0, 0, 0, 0xff)) 3 2 (2, 2) (0, 0, 0, 0xff) rfl rfl rfl
  refine ⟨h₁, ?_, ?_⟩
  · rw [hcache, hsecond]
  · rw [hcache]
    exact (hfresh (.new 1 1 (0, 0, 0, 0xff)) 3 2 (3, 2) (0, 0, 0, 0xff)
      (by decide) rfl).1

/-- C9: in every reachable view state, the all-expanded flag is true only
when the recursive children-loaded check succeeds on the whole resident
hierarchy and the expanded-id set equals the fully determined
expandable-id set; while loading is incomplete the expandable set is
indeterminate and the flag stays false. -/
theorem C9_all_expanded_only_when_fully_loaded (idIdx : Nat)
    (s : ViewState) (h : ViewReachable idIdx s)
    (ha : s.allExpanded = true) :
    s.tree.isChildrenLoadedRec = true ∧
    s.expandedIds = expandableSet idIdx s.tree :=
  (viewInv_of_reachable h).1 ha

/-- Witness for C9: a freshly constructed view that refreshes into a
fully loaded, childless hierarchy reaches a state asserting
all-expanded, and the theorem applies to it. -/
theorem C9_all_expanded_only_when_fully_loaded_witness :
    ViewReachable 0
      (checkAllExpanded 0 ⟨Node.mk [] [] true [], ∅, ∅, false⟩) ∧
    (checkAllExpanded 0
      ⟨Node.mk [] [] true [], ∅, ∅, false⟩).allExpanded = true ∧
    ((checkAllExpanded 0
        ⟨Node.mk [] [] true [], ∅, ∅, false⟩).tree.isChildrenLoadedRec
        = true ∧
      (checkAllExpanded 0
        ⟨Node.mk [] [] true [], ∅, ∅, false⟩).expandedIds =
        expandableSet 0
          (checkAllExpanded 0 ⟨Node.mk [] [] true [], ∅, ∅, false⟩).tree) := by
  have hreach : ViewReachable 0
      (checkAllExpanded 0 ⟨Node.mk [] [] true [], ∅, ∅, false⟩) :=
    ⟨⟨Node.mk [] [] true [], ∅, ∅, false⟩, ⟨rfl, rfl⟩,
      Relation.ReflTransGen.single
        (Step.refresh ⟨Node.mk [] [] true [], ∅, ∅, false⟩
          (Node.mk [] [] true []) ∅)⟩
  have hall : (checkAllExpanded 0
      ⟨Node.mk [] [] true [], ∅, ∅, false⟩).allExpanded = true := by
    simp [checkAllExpanded, getExpandableIds, expandableSet,
      Node.isChildrenLoadedRec, nodesLoadedRec, Node.expandableIds,
      expandableIdsList]
  exact ⟨hreach, hall,
    C9_all_expanded_only_when_fully_loaded 0 _ hreach hall⟩

/-- C1 counterexample: against a data source that defines no id column,
refresh stores the total count and emits `data-loaded` with it, but it
does not assign sequential root paths: the single loaded root keeps the
path `(5,)` it arrived with instead of `(0,)`. -/
theorem C1_counterexample :
    (DataGridModel.refresh dsNoId emptyModel).map
        (fun r => (r.1.rows.children.map Node.path, r.1.totalRecs, r.2)) =
      .ok ([[5]], some 1, 1) ∧
    ([[5]] : List (List Nat)) ≠ [[0]] := by
  exact ⟨rfl, by decide⟩

/-- C1 (amended): refresh always stores `total_recs` as the data
source's reported count and emits `data-loaded` carrying it; but root
paths are (re)assigned and the row-id index populated only when the data
source defines an id column.  In that case — provided every loaded root
carries a value at the id position — root `i` gets path `(i,)`, and when
the root id values are pairwise distinct every root is registered in the
index under its id value. -/
theorem C1_refresh (ds : DataSource) (m : DataGridModel) :
    (ds.idColumnIdx = none →
      DataGridModel.refresh ds m =
        .ok ({ m with
          activeParams :=
            { m.activeParams with page := none, parentId := none }
          rowIdMapper := []
          idColumnIdx := none
          parentColumnIdx := ds.parentColumnIdx
          flatColumnIdx := ds.flatColumnIdx
          totalRecs := some ds.totalRecs
          rows := (ds.load { m.activeParams with
            page := none, parentId := none }).withPath [] },
          ds.totalRecs)) ∧
    (∀ k, ds.idColumnIdx = some k →
      (∀ r ∈ (ds.load { m.activeParams with
          page := none, parentId := none }).children, k < r.data.length) →
      ∃ m', DataGridModel.refresh ds m = .ok (m', ds.totalRecs) ∧
        m'.totalRecs = some ds.totalRecs ∧
        m'.rows.children.length =
          (ds.load { m.activeParams with
            page := none, parentId := none }).children.length ∧
        (∀ (j : Nat) (r' : Node),
          m'.rows.children[j]? = some r' → r'.path = [j]) ∧
        (((ds.load { m.activeParams with
              page := none, parentId := none }).children.map
            (fun r => r.data.getD k .vnone)).Nodup →
          ∀ r' ∈ m'.rows.children,
            alistLookup m'.rowIdMapper (r'.data.getD k .vnone) =
              some r')) := by
  constructor
  · intro h
    simp only [DataGridModel.refresh, h]
  · intro k hk hlen
    obtain ⟨rows', mapper', heq, hlength, hpaths, _, hreg⟩ :=
      appendLoadedRows_spec k [] ((ds.load { m.activeParams with
        page := none, parentId := none }).withPath []).children 0 []
        (by simpa using hlen)
    have hrun : DataGridModel.refresh ds m =
        .ok ({ m with
          activeParams :=
            { m.activeParams with page := none, parentId := none }
          rowIdMapper := mapper'
          idColumnIdx := some k
          parentColumnIdx := ds.parentColumnIdx
          flatColumnIdx := ds.flatColumnIdx
          totalRecs := some ds.totalRecs
          rows := Node.mk
            ((ds.load { m.activeParams with
              page := none, parentId := none }).withPath []).data
            ((ds.load { m.activeParams with
              page := none, parentId := none }).withPath []).path
            ((ds.load { m.activeParams with
              page := none, parentId := none }).withPath []).childrenLoaded
            rows' }, ds.totalRecs) := by
      simp only [DataGridModel.refresh, hk, heq]
    refine ⟨_, hrun, rfl, ?_, ?_, ?_⟩
    · simpa using hlength
    · intro j r' hj
      have := (hpaths j r' (by simpa using hj)).1
      simpa using this
    · intro hnodup r' hr'
      exact hreg (by simpa using hnodup) r' (by simpa using hr')

/-- Witness for C1: refreshing against a source with an id column whose
two loaded roots arrive with scrambled paths succeeds, emits the count 2
and stores it. -/
theorem C1_refresh_witness :
    (DataGridModel.refresh dsWithId emptyModel).map
        (fun r => (r.1.totalRecs, r.2)) = .ok (some 2, 2) := by
  obtain ⟨m', heq, htot, -, -, -⟩ :=
    (C1_refresh dsWithId emptyModel).2 0 rfl (by decide)
  rw [heq]
  show Except.ok (m'.totalRecs, dsWithId.totalRecs) = _
  rw [htot]
  rfl

/-- Inversion of the root-pagination preparation: a successful
preparation advanced the page, set `parent_id` to `None`, and targets
the end of the root collection. -/
theorem addRowsPrep_none_inv (m : DataGridModel)
    (pid : Value) (ppath : Option (List Nat)) (pfx : List Nat) (off : Nat)
    (params : Params) (writes : List ParamWrite)
    (h : addRowsPrep m none = .ok (pid, ppath, pfx, off, params, writes)) :
    pid = .vnone ∧ ppath = none ∧ pfx = m.rows.path ∧
    params = { m.activeParams with
      page := some ((m.activeParams.page.getD 0) + 1),
      parentId := some .vnone } ∧
    writes = [.setPage ((m.activeParams.page.getD 0) + 1),
      .setParentId .vnone] := by
  simp only [addRowsPrep] at h
  cases hlast : m.rows.children.getLast? with
  | none => simp only [hlast] at h; exact absurd h (by simp)
  | some last =>
    simp only [hlast] at h
    cases hidx : last.path.getLast? with
    | none => simp only [hidx] at h; exact absurd h (by simp)
    | some j =>
      simp only [hidx] at h
      simp only [Except.ok.injEq, Prod.mk.injEq] at h
      obtain ⟨h1, h2, h3, _, h5, h6⟩ := h
      exact ⟨h1.symm, h2.symm, h3.symm, h5.symm, h6.symm⟩

/-- Inversion of the specific-parent preparation: a successful
preparation resolved the parent, read its id value, set `parent_id` to
it and touched nothing else. -/
theorem addRowsPrep_some_inv (m : DataGridModel) (pp : List Nat)
    (pid : Value) (ppath : Option (List Nat)) (pfx : List Nat) (off : Nat)
    (params : Params) (writes : List ParamWrite)
    (h : addRowsPrep m (some pp) =
      .ok (pid, ppath, pfx, off, params, writes)) :
    ppath = some pp ∧ off = 0 ∧
    params = { m.activeParams with parentId := some pid } ∧
    writes = [.setParentId pid] ∧
    ∃ parent k, m.rows.getByPath pp = some parent ∧
      m.idColumnIdx = some k ∧ parent.data[k]? = some pid ∧
      pfx = parent.path := by
  simp only [addRowsPrep] at h
  cases hpar : m.rows.getByPath pp with
  | none => simp only [hpar] at h; exact absurd h (by simp)
  | some parent =>
    simp only [hpar] at h
    cases hk : m.idColumnIdx with
    | none => simp only [hk] at h; exact absurd h (by simp)
    | some k =>
      simp only [hk] at h
      cases hpid : parent.data[k]? with
      | none => simp only [hpid] at h; exact absurd h (by simp)
      | some pidv =>
        simp only [hpid] at h
        simp only [Except.ok.injEq, Prod.mk.injEq] at h
        obtain ⟨h1, h2, h3, h4, h5, h6⟩ := h
        subst h1
        exact ⟨h2.symm, h4.symm, h5.symm, h6.symm, parent, k, rfl, rfl,
          hpid, h3.symm⟩

/-- The hierarchical-display early return of `add_rows`: with a parent
column present, flat mode off and no parent node given, the call is a
complete no-op reporting `False`. -/
theorem addRows_tree_noop (ds : DataSource) (m : DataGridModel)
    (hpar : m.parentColumnIdx.isSome = true)
    (hflat : m.activeParams.flat = false) :
    m.addRows ds none = .ok (false, m, []) := by
  simp [DataGridModel.addRows, hpar, hflat]

/-- The zero-rows frame of `add_rows`: when the call reaches the data
source and the load returns no rows, it reports `False` having changed
only the active query parameters. -/
theorem addRows_zero_rows (ds : DataSource) (m : DataGridModel)
    (pp : Option (List Nat)) (pid : Value) (ppath : Option (List Nat))
    (pfx : List Nat) (off : Nat) (params : Params)
    (writes : List ParamWrite)
    (hprep : addRowsPrep m pp = .ok (pid, ppath, pfx, off, params, writes))
    (hnot : ¬(m.parentColumnIdx.isSome = true ∧
      m.activeParams.flat = false ∧ pp = none))
    (hload : (ds.load params).children = []) :
    m.addRows ds pp =
      .ok (false, { m with activeParams := params }, writes) := by
  have hempty : (ds.load params).children.isEmpty = true := by
    simp [hload]
  cases pp with
  | none =>
    have hisTree :
        (m.parentColumnIdx.isSome && !m.activeParams.flat) = false := by
      cases hps : m.parentColumnIdx.isSome <;>
        cases hfl : m.activeParams.flat <;> simp_all
    simp only [DataGridModel.addRows, hisTree, Bool.false_and,
      Bool.false_eq_true, if_false, hprep, hempty, if_true]
  | some p' =>
    simp only [DataGridModel.addRows, Option.isNone_some, Bool.and_false,
      Bool.false_eq_true, if_false, hprep, hempty, if_true]

/-- C2 counterexample: with an empty root collection and a
non-hierarchical model, root pagination raises `IndexError` before ever
consulting the data source — even though the source would return a row —
so the call neither reports "nothing changed" nor appends a row and
returns `True`. -/
theorem C2_counterexample :
    DataGridModel.addRows dsOneRow emptyModel none =
      .error "IndexError: list index out of range" ∧
    (dsOneRow.load { defaultParams with
      page := some 1
      parentId := some .vnone }).children ≠ [] := by
  exact ⟨rfl, List.cons_ne_nil _ _⟩

/-- C2 (amended): `add_rows` reports `False` without touching the root
collection or the row-id index exactly in the hierarchical-no-parent
case and when the reached load returns zero rows; and in every other
case in which the preparation phase succeeds (the root collection is
non-empty for root pagination), an id column exists and every loaded row
carries a value at the id position, the loaded rows are appended under
the target parent and the call returns `True`. -/
theorem C2_add_rows (ds : DataSource) (m : DataGridModel) :
    (m.parentColumnIdx.isSome = true → m.activeParams.flat = false →
      m.addRows ds none = .ok (false, m, [])) ∧
    (∀ (pp : Option (List Nat)) (pid : Value) (ppath : Option (List Nat))
      (pfx : List Nat) (off : Nat) (params : Params)
      (writes : List ParamWrite),
      addRowsPrep m pp = .ok (pid, ppath, pfx, off, params, writes) →
      ¬(m.parentColumnIdx.isSome = true ∧ m.activeParams.flat = false ∧
        pp = none) →
      (ds.load params).children = [] →
      m.addRows ds pp =
        .ok (false, { m with activeParams := params }, writes)) ∧
    (∀ (pid : Value) (ppath : Option (List Nat)) (pfx : List Nat)
      (off : Nat) (params : Params) (writes : List ParamWrite) (k : Nat),
      addRowsPrep m none = .ok (pid, ppath, pfx, off, params, writes) →
      ¬(m.parentColumnIdx.isSome = true ∧ m.activeParams.flat = false) →
      (ds.load params).children ≠ [] →
      m.idColumnIdx = some k →
      (∀ r ∈ (ds.load params).children, k < r.data.length) →
      ∃ m', m.addRows ds none = .ok (true, m', writes) ∧
        m'.rows.children.length =
          m.rows.children.length + (ds.load params).children.length) ∧
    (∀ (pp : List Nat) (pid : Value) (ppath : Option (List Nat))
      (pfx : List Nat) (off : Nat) (params : Params)
      (writes : List ParamWrite) (k : Nat) (parent : Node),
      addRowsPrep m (some pp) = .ok (pid, ppath, pfx, off, params, writes) →
      (ds.load params).children ≠ [] →
      m.idColumnIdx = some k →
      (∀ r ∈ (ds.load params).children, k < r.data.length) →
      m.rows.getByPath pp = some parent →
      ∃ m' parent', m.addRows ds (some pp) = .ok (true, m', writes) ∧
        m'.rows.getByPath pp = some parent' ∧
        parent'.children.length =
          parent.children.length + (ds.load params).children.length) := by
  refine ⟨addRows_tree_noop ds m, ?_, ?_, ?_⟩
  · intro pp pid ppath pfx off params writes hprep hnot hload
    exact addRows_zero_rows ds m pp pid ppath pfx off params writes hprep
      hnot hload
  · intro pid ppath pfx off params writes k hprep hnot hload hk hlen
    obtain ⟨-, hppath, -, -, -⟩ :=
      addRowsPrep_none_inv m pid ppath pfx off params writes hprep
    subst hppath
    have hisTree :
        (m.parentColumnIdx.isSome && !m.activeParams.flat) = false := by
      cases hps : m.parentColumnIdx.isSome <;>
        cases hfl : m.activeParams.flat <;> simp_all
    have hempty : (ds.load params).children.isEmpty = false := by
      simpa [List.isEmpty_iff] using hload
    obtain ⟨newRows, mapper', hspec, hlength, -, -, -⟩ :=
      appendLoadedRows_spec k pfx (ds.load params).children off
        m.rowIdMapper hlen
    refine ⟨{ m with
        activeParams := params
        rowIdMapper := mapper'
        rows := m.rows.appendChildren newRows }, ?_, ?_⟩
    · simp only [DataGridModel.addRows, hisTree, Bool.false_and,
        Bool.false_eq_true, if_false, hprep, hempty, hk, hspec]
    · simp [hlength]
  · intro pp pid ppath pfx off params writes k parent hprep hload hk hlen
      hparent
    obtain ⟨hppath, -, -, -, parent₀, k₀, hparent₀, hk₀, -, -⟩ :=
      addRowsPrep_some_inv m pp pid ppath pfx off params writes hprep
    subst hppath
    rw [hparent] at hparent₀
    cases hparent₀
    have hempty : (ds.load params).children.isEmpty = false := by
      simpa [List.isEmpty_iff] using hload
    obtain ⟨newRows, mapper', hspec, hlength, -, -, -⟩ :=
      appendLoadedRows_spec k pfx (ds.load params).children off
        m.rowIdMapper hlen
    refine ⟨{ m with
        activeParams := params
        rowIdMapper := mapper'
        rows := m.rows.modifyAtPath pp (·.appendChildren newRows) },
      parent.appendChildren newRows, ?_, ?_, ?_⟩
    · simp only [DataGridModel.addRows, Option.isNone_some, Bool.and_false,
        Bool.false_eq_true, if_false, hprep, hempty, hk, hspec]
    · exact getByPath_modifyAtPath _ pp m.rows parent hparent
    · simp [hlength]

/-- Witness for C2: the hierarchical no-parent no-op, a zero-row root
pagination, a root pagination that appends one row, and a parent load
that appends one child, all at concrete inputs. -/
theorem C2_add_rows_witness :
    DataGridModel.addRows dsEmptyLoad mTree none = .ok (false, mTree, []) ∧
    DataGridModel.addRows dsEmptyLoad mFlat none =
      .ok (false,
        { mFlat with activeParams := { defaultParams with
            page := some 1
            parentId := some .vnone } },
        [.setPage 1, .setParentId .vnone]) ∧
    (DataGridModel.addRows dsOneRow mFlat none).map
        (fun r => (r.1, r.2.1.rows.children.length, r.2.2)) =
      .ok (true, 2, [.setPage 1, .setParentId .vnone]) ∧
    (DataGridModel.addRows dsOneRow mTree (some [0])).map
        (fun r => (r.1,
          (r.2.1.rows.getByPath [0]).map (fun p => p.children.length),
          r.2.2)) =
      .ok (true, some 1, [.setParentId (.vint 1)]) := by
  refine ⟨(C2_add_rows dsEmptyLoad mTree).1 rfl rfl, ?_, ?_, ?_⟩
  · exact (C2_add_rows dsEmptyLoad mFlat).2.1 none .vnone none [] 1
      { defaultParams with page := some 1, parentId := some .vnone }
      [.setPage 1, .setParentId .vnone] rfl (by decide) rfl
  · obtain ⟨m', heq, hlen⟩ :=
      (C2_add_rows dsOneRow mFlat).2.2.1 .vnone none [] 1
        { defaultParams with page := some 1, parentId := some .vnone }
        [.setPage 1, .setParentId .vnone] 0 rfl (by decide)
        (List.cons_ne_nil _ _) rfl (by decide)
    rw [heq]
    show Except.ok (true, m'.rows.children.length, _) = _
    rw [hlen]
    rfl
  · obtain ⟨m', parent', heq, hget, hlen⟩ :=
      (C2_add_rows dsOneRow mTree).2.2.2 [0] (.vint 1) (some [0]) [0] 0
        { defaultParams with parentId := some (.vint 1) }
        [.setParentId (.vint 1)] 0 (Node.mk [.vint 1] [0] false [])
        rfl (List.cons_ne_nil _ _) rfl (by decide) rfl
    rw [heq]
    show Except.ok (true, (m'.rows.getByPath [0]).map
      (fun p => p.children.length), _) = _
    rw [hget]
    show Except.ok (true, some parent'.children.length, _) = _
    rw [hlen]
    rfl

/-- C10: even a zero-row `add_rows` load has already mutated the active
query parameters — root pagination advanced `page` and set `parent_id`
to `None`; a specific-parent load set `parent_id` to the parent's id and
left `page` alone — and only the hierarchical-no-parent early return
completes without performing any parameter write. -/
theorem C10_add_rows_mutates_params (ds : DataSource) (m : DataGridModel) :
    (∀ (pid : Value) (ppath : Option (List Nat)) (pfx : List Nat)
      (off : Nat) (params : Params) (writes : List ParamWrite),
      addRowsPrep m none = .ok (pid, ppath, pfx, off, params, writes) →
      ¬(m.parentColumnIdx.isSome = true ∧ m.activeParams.flat = false) →
      (ds.load params).children = [] →
      m.addRows ds none =
        .ok (false, { m with activeParams := params }, writes) ∧
      params.page = some ((m.activeParams.page.getD 0) + 1) ∧
      params.parentId = some .vnone ∧
      writes = [.setPage ((m.activeParams.page.getD 0) + 1),
        .setParentId .vnone]) ∧
    (∀ (pp : List Nat) (pid : Value) (ppath : Option (List Nat))
      (pfx : List Nat) (off : Nat) (params : Params)
      (writes : List ParamWrite),
      addRowsPrep m (some pp) = .ok (pid, ppath, pfx, off, params, writes) →
      (ds.load params).children = [] →
      m.addRows ds (some pp) =
        .ok (false, { m with activeParams := params }, writes) ∧
      params.parentId = some pid ∧
      params.page = m.activeParams.page ∧
      writes = [.setParentId pid] ∧
      ∃ parent k, m.rows.getByPath pp = some parent ∧
        m.idColumnIdx = some k ∧ parent.data[k]? = some pid) ∧
    (m.parentColumnIdx.isSome = true → m.activeParams.flat = false →
      m.addRows ds none = .ok (false, m, [])) ∧
    (∀ (pp : Option (List Nat)) (b : Bool) (m' : DataGridModel)
      (ws : List ParamWrite),
      m.addRows ds pp = .ok (b, m', ws) → ws = [] →
      m' = m ∧ m.parentColumnIdx.isSome = true ∧
      m.activeParams.flat = false ∧ pp = none) := by
  refine ⟨?_, ?_, ?_, ?_⟩
  · intro pid ppath pfx off params writes hprep hnot hload
    obtain ⟨-, -, -, hparams, hwrites⟩ :=
      addRowsPrep_none_inv m pid ppath pfx off params writes hprep
    refine ⟨addRows_zero_rows ds m none pid ppath pfx off params writes
      hprep (by tauto) hload, ?_, ?_, hwrites⟩
    · rw [hparams]
    · rw [hparams]
  · intro pp pid ppath pfx off params writes hprep hload
    obtain ⟨-, -, hparams, hwrites, parent, k, hparent, hk, hpid, -⟩ :=
      addRowsPrep_some_inv m pp pid ppath pfx off params writes hprep
    refine ⟨addRows_zero_rows ds m (some pp) pid ppath pfx off params
      writes hprep (by simp) hload, ?_, ?_, hwrites,
      parent, k, hparent, hk, hpid⟩
    · rw [hparams]
    · rw [hparams]
  · exact addRows_tree_noop ds m
  · intro pp b m' ws h hws
    subst hws
    by_cases hguard :
        ((m.parentColumnIdx.isSome && !m.activeParams.flat) && pp.isNone) =
          true
    · simp only [DataGridModel.addRows, hguard, if_true] at h
      obtain ⟨hsome, hnone⟩ := Bool.and_eq_true_iff.mp hguard
      obtain ⟨hpar, hflat⟩ := Bool.and_eq_true_iff.mp hsome
      simp only [Except.ok.injEq, Prod.mk.injEq] at h
      exact ⟨h.2.1.symm, hpar, by simpa using hflat,
        Option.isNone_iff_eq_none.mp hnone⟩
    · have hg :
          ((m.parentColumnIdx.isSome && !m.activeParams.flat) &&
            pp.isNone) = false := by
        revert hguard
        cases (m.parentColumnIdx.isSome && !m.activeParams.flat) &&
          pp.isNone <;> simp
      simp only [DataGridModel.addRows, hg, Bool.false_eq_true, if_false]
        at h
      cases hprep : addRowsPrep m pp with
      | error e => simp only [hprep] at h; exact absurd h (by simp)
      | ok tup =>
        obtain ⟨pid, ppath, pfx, off, params, writes⟩ := tup
        have hwne : writes ≠ [] := by
          cases pp with
          | none =>
            obtain ⟨-, -, -, -, hw⟩ :=
              addRowsPrep_none_inv m pid ppath pfx off params writes hprep
            rw [hw]; simp
          | some p' =>
            obtain ⟨-, -, -, hw, -⟩ :=
              addRowsPrep_some_inv m p' pid ppath pfx off params writes
                hprep
            rw [hw]; simp
        simp only [hprep] at h
        by_cases hempty : (ds.load params).children.isEmpty = true
        · simp only [hempty, if_true] at h
          simp only [Except.ok.injEq, Prod.mk.injEq] at h
          exact absurd h.2.2 hwne
        · have hempty' : (ds.load params).children.isEmpty = false := by
            simpa using hempty
          simp only [hempty', Bool.false_eq_true, if_false] at h
          cases hk : m.idColumnIdx with
          | none => simp only [hk] at h; exact absurd h (by simp)
          | some k =>
            simp only [hk] at h
            cases happ : appendLoadedRows k pfx off
                (ds.load params).children m.rowIdMapper with
            | error e => simp only [happ] at h; exact absurd h (by simp)
            | ok pr =>
              obtain ⟨newRows, mapper'⟩ := pr
              simp only [happ] at h
              simp only [Except.ok.injEq, Prod.mk.injEq] at h
              exact absurd h.2.2 hwne

/-- Witness for C10: at concrete inputs, the zero-row root pagination
left `page = 1` and `parent_id = None` behind, the zero-row parent load
left `parent_id = 1` behind with `page` untouched, and the
hierarchical-no-parent call wrote nothing. -/
theorem C10_add_rows_mutates_params_witness :
    DataGridModel.addRows dsEmptyLoad mFlat none =
      .ok (false,
        { mFlat with activeParams := { defaultParams with
            page := some 1
            parentId := some .vnone } },
        [.setPage 1, .setParentId .vnone]) ∧
    ({ defaultParams with
      page := some 1
      parentId := some (Value.vnone) } : Params).page = some 1 ∧
    DataGridModel.addRows dsEmptyLoad mTree (some [0]) =
      .ok (false,
        { mTree with activeParams := { defaultParams with
            parentId := some (.vint 1) } },
        [.setParentId (.vint 1)]) ∧
    ({ defaultParams with
      parentId := some (Value.vint 1) } : Params).page = none ∧
    DataGridModel.addRows dsEmptyLoad mTree none = .ok (false, mTree, []) := by
  obtain ⟨h₁, h₂, -, -⟩ :=
    (C10_add_rows_mutates_params dsEmptyLoad mFlat).1 .vnone none [] 1
      { defaultParams with page := some 1, parentId := some .vnone }
      [.setPage 1, .setParentId .vnone] rfl (by decide) rfl
  obtain ⟨h₃, -, h₄, -⟩ :=
    (C10_add_rows_mutates_params dsEmptyLoad mTree).2.1 [0] (.vint 1)
      (some [0]) [0] 0 { defaultParams with parentId := some (.vint 1) }
      [.setParentId (.vint 1)] rfl rfl
  exact ⟨h₁, h₂, h₃, h₄, (C10_add_rows_mutates_params dsEmptyLoad mTree).2.2.1
    rfl rfl⟩

/-- C8: the best column width is the maximum measured sample width
(1 when nothing was measured), clamped to `[MIN_WIDTH, MAX_WIDTH]` =
`[40, 400]`, except that a below-minimum maximum with a header label
wider than the minimum yields label width + 20; in particular samples
{20, 500, 45} give 400 and all-10 samples under a 60-pixel label give
80. -/
theorem C8_best_column_width (labelWidth : Nat) (lengths : List Nat) :
    ((if lengths.isEmpty then 1 else lengths.foldl max 0) <
        DataGridView.MIN_WIDTH →
      DataGridView.MIN_WIDTH < labelWidth →
      DataGridView.getBestColumnWidth labelWidth lengths = labelWidth + 20) ∧
    ((if lengths.isEmpty then 1 else lengths.foldl max 0) <
        DataGridView.MIN_WIDTH →
      ¬DataGridView.MIN_WIDTH < labelWidth →
      DataGridView.getBestColumnWidth labelWidth lengths =
        DataGridView.MIN_WIDTH) ∧
    (DataGridView.MIN_WIDTH ≤
        (if lengths.isEmpty then 1 else lengths.foldl max 0) →
      (if lengths.isEmpty then 1 else lengths.foldl max 0) ≤
        DataGridView.MAX_WIDTH →
      DataGridView.getBestColumnWidth labelWidth lengths =
        (if lengths.isEmpty then 1 else lengths.foldl max 0)) ∧
    (DataGridView.MAX_WIDTH <
        (if lengths.isEmpty then 1 else lengths.foldl max 0) →
      DataGridView.getBestColumnWidth labelWidth lengths =
        DataGridView.MAX_WIDTH) ∧
    DataGridView.getBestColumnWidth labelWidth [20, 500, 45] = 400 ∧
    DataGridView.getBestColumnWidth 60 [10, 10, 10] = 80 := by
  refine ⟨?_, ?_, ?_, ?_, ?_, ?_⟩
  · intro h₁ h₂
    simp only [DataGridView.getBestColumnWidth]
    rw [if_pos h₁, if_pos h₂]
  · intro h₁ h₂
    simp only [DataGridView.getBestColumnWidth]
    rw [if_pos h₁, if_neg h₂]
  · intro h₁ h₂
    simp only [DataGridView.MIN_WIDTH, DataGridView.MAX_WIDTH] at h₁ h₂
    simp only [DataGridView.getBestColumnWidth, DataGridView.MIN_WIDTH,
      DataGridView.MAX_WIDTH]
    rw [if_neg (by omega), if_neg (by omega)]
  · intro h₁
    simp only [DataGridView.MIN_WIDTH, DataGridView.MAX_WIDTH] at h₁
    simp only [DataGridView.getBestColumnWidth, DataGridView.MIN_WIDTH,
      DataGridView.MAX_WIDTH]
    rw [if_neg (by omega), if_pos (by omega)]
  · simp [DataGridView.getBestColumnWidth, DataGridView.MIN_WIDTH,
      DataGridView.MAX_WIDTH]
  · rfl

/-- Witness for C8: the clamp-then-widen conjuncts instantiated at
concrete samples. -/
theorem C8_best_column_width_witness :
    DataGridView.getBestColumnWidth 60 [10, 10, 10] = 60 + 20 ∧
    DataGridView.getBestColumnWidth 10 [10, 10, 10] = 40 ∧
    DataGridView.getBestColumnWidth 10 [100] = 100 ∧
    DataGridView.getBestColumnWidth 10 [500] = 400 := by
  refine ⟨?_, ?_, ?_, ?_⟩
  · exact (C8_best_column_width 60 [10, 10, 10]).1 (by decide) (by decide)
  · exact (C8_best_column_width 10 [10, 10, 10]).2.1 (by decide) (by decide)
  · exact (C8_best_column_width 10 [100]).2.2.1 (by decide) (by decide)
  · exact (C8_best_column_width 10 [500]).2.2.2.1 (by decide)

/-- C3 (code-bug evaluation): toggling `__selected` through `set_value`
coerces the row's id with `int(id_)`, so on a row whose id value is the
non-numeric string `"abc"` the call raises `ValueError` and issues no
data-source update at all — although the formatted read-back path for
`__selected` does return the plain boolean, and the very same toggle
against an integer id `7` succeeds with exactly one update keyed by the
id and carrying the new value. -/
theorem C3_set_value_int_coercion :
    DataGridModel.setValue dsEmptyLoad mSel [0] 0 (.vbool true) =
      .error "ValueError: invalid literal for int()" ∧
    DataGridModel.getFormattedValue regBoolean dsEmptyLoad mSel
      (.vbool true) 0 true = .ok (.vbool true) ∧
    DataGridModel.setValue dsEmptyLoad mSelInt [0] 0 (.vbool true) =
      .ok ({ mSelInt with rows := (.mk [] [] true
          [Node.mk [.vbool true, .vint 7] [0] true []] : Node) },
        [⟨"__selected", .vbool true, [.vint 7]⟩], true) := by
  exact ⟨rfl, rfl, rfl⟩

/-- C4 counterexample: when the icon theme satisfies none of the
candidate identifiers, `get_icon_for_file` raises an attribute error on
the undefined icon result instead of returning an undefined/empty
result. -/
theorem C4_counterexample :
    ImageUtils.getIconForFile (fun _ _ => none) false (some "image/png")
      48 = .error "AttributeError: NoneType object has no attribute" := by
  exact rfl

/-- C4 (amended): when at least one candidate resolves, the first
resolvable candidate's filename is returned without error; but when no
candidate can be satisfied at the requested size, the operation raises
(attribute access on the undefined `choose_icon` result) rather than
returning an undefined/empty result. -/
theorem C4_icon_resolution (theme : String → Nat → Option String)
    (isDir : Bool) (guessedType : Option String) (size : Nat)
    (iconList : List String)
    (hlist : ImageUtils.iconCandidatesForFile isDir guessedType =
      .ok iconList) :
    (∀ filename,
      iconList.findSome? (fun name => theme name size) = some filename →
      ImageUtils.getIconForFile theme isDir guessedType size =
        .ok filename) ∧
    (iconList.findSome? (fun name => theme name size) = none →
      ImageUtils.getIconForFile theme isDir guessedType size =
        .error "AttributeError: NoneType object has no attribute") := by
  constructor
  · intro filename hf
    simp only [ImageUtils.getIconForFile, hlist, hf]
  · intro hf
    simp only [ImageUtils.getIconForFile, hlist, hf]

/-- Witness for C4: a theme resolving only `unknown` resolves an
`image/png` file through the last candidate. -/
theorem C4_icon_resolution_witness :
    ImageUtils.getIconForFile
      (fun name _ =>
        if name = "unknown" then some "/theme/unknown.png" else none)
      false (some "image/png") 48 = .ok "/theme/unknown.png" := by
  exact (C4_icon_resolution
    (fun name _ =>
      if name = "unknown" then some "/theme/unknown.png" else none)
    false (some "image/png") 48
    ["image-png", "png", "image", "image-x-generic", "unknown"]
    rfl).1 "/theme/unknown.png" rfl

/-- C5: a date change resolves an absent start date to timestamp 0
(`MIN_TIMESTAMP`) and an absent end date to 2147485547
(`MAX_TIMESTAMP`), installs exactly one `{operator: "range",
param: (start, end)}` clause on the currently selected date column,
removes the clause of every other date-column candidate while leaving
non-date keys untouched, so at most one date-range filter is active. -/
theorem C5_date_range_filter (parseTimestamp : String → Int)
    (startDate endDate : String) (dateColumns : List String)
    (activeDateColumn : Int) (p : Params) (column : String)
    (h0 : 0 ≤ activeDateColumn)
    (h1 : activeDateColumn.toNat < dateColumns.length)
    (hcol : dateColumns[activeDateColumn.toNat]? = some column) :
    ∃ p', DataGridController.onDateChange parseTimestamp startDate endDate
        dateColumns activeDateColumn p = .ok p' ∧
      alistLookup (p'.whereMap.getD []) column =
        some ⟨"range", .range
          (if startDate ≠ "" then parseTimestamp (startDate ++ " 00:00")
            else DataGridController.MIN_TIMESTAMP)
          (if endDate ≠ "" then parseTimestamp (endDate ++ " 23:59")
            else DataGridController.MAX_TIMESTAMP)⟩ ∧
      DataGridController.MIN_TIMESTAMP = 0 ∧
      DataGridController.MAX_TIMESTAMP = 2147485547 ∧
      (∀ c ∈ dateColumns, c ≠ column →
        alistLookup (p'.whereMap.getD []) c = none) ∧
      (∀ key, key ∉ dateColumns →
        alistLookup (p'.whereMap.getD []) key =
          alistLookup (p.whereMap.getD []) key) ∧
      (∀ c ∈ dateColumns,
        (alistLookup (p'.whereMap.getD []) c).isSome = true →
        c = column) := by
  have hget : dateColumns.get ⟨activeDateColumn.toNat, h1⟩ = column := by
    have := List.getElem?_eq_getElem h1
    rw [hcol] at this
    simpa using this.symm
  have hmem : column ∈ dateColumns := by
    rw [← hget]; exact List.get_mem _ _ _
  have hrun : DataGridController.onDateChange parseTimestamp startDate
      endDate dateColumns activeDateColumn p =
      .ok (DataGridController.refreshViewParams p
        [(dateColumns.get ⟨activeDateColumn.toNat, h1⟩, ⟨"range", .range
          (if startDate ≠ "" then parseTimestamp (startDate ++ " 00:00")
            else DataGridController.MIN_TIMESTAMP)
          (if endDate ≠ "" then parseTimestamp (endDate ++ " 23:59")
            else DataGridController.MAX_TIMESTAMP)⟩)] dateColumns) := by
    simp only [DataGridController.onDateChange]
    rw [dif_pos (And.intro h0 h1)]
  rw [hget] at hrun
  refine ⟨_, hrun, ?_, rfl, rfl, ?_, ?_, ?_⟩
  all_goals
    simp only [DataGridController.refreshViewParams, List.foldl_cons,
      List.foldl_nil]
  · rw [show (alistInsert (dateColumns.foldl
        (fun acc kk => alistErase acc kk) (p.whereMap.getD []))
        column ⟨"range", .range _ _⟩).isEmpty = false from rfl]
    simp only [Bool.false_eq_true, if_false, Option.getD_some]
    exact alistLookup_insert_self _ _ _
  · intro c hc hne
    rw [show (alistInsert (dateColumns.foldl
        (fun acc kk => alistErase acc kk) (p.whereMap.getD []))
        column ⟨"range", .range _ _⟩).isEmpty = false from rfl]
    simp only [Bool.false_eq_true, if_false, Option.getD_some]
    rw [alistLookup_insert_ne _ _ _ _ hne, alistLookup_foldl_erase]
    simp [hc]
  · intro key hkey
    have hne : key ≠ column := fun hc => hkey (hc ▸ hmem)
    rw [show (alistInsert (dateColumns.foldl
        (fun acc kk => alistErase acc kk) (p.whereMap.getD []))
        column ⟨"range", .range _ _⟩).isEmpty = false from rfl]
    simp only [Bool.false_eq_true, if_false, Option.getD_some]
    rw [alistLookup_insert_ne _ _ _ _ hne, alistLookup_foldl_erase]
    simp [hkey]
  · intro c hc hsome
    by_contra hne
    rw [show (alistInsert (dateColumns.foldl
        (fun acc kk => alistErase acc kk) (p.whereMap.getD []))
        column ⟨"range", .range _ _⟩).isEmpty = false from rfl] at hsome
    simp only [Bool.false_eq_true, if_false, Option.getD_some] at hsome
    rw [alistLookup_insert_ne _ _ _ _ hne, alistLookup_foldl_erase] at hsome
    simp [hc] at hsome

/-- Witness for C5: with both dates absent and `created` selected among
`{created, modified}`, the resulting parameters carry exactly
`{operator: "range", param: (0, 2147485547)}` on `created`, no clause on
`modified` (whose old range clause is removed), and an untouched
unrelated clause. -/
theorem C5_date_range_filter_witness :
    (DataGridController.onDateChange (fun _ => 42) "" ""
        ["created", "modified"] 0
        { defaultParams with
          whereMap := some [("modified", ⟨"range", .range 1 2⟩),
            ("other", ⟨"=", .txt "x"⟩)] }).map
      (fun p' => (alistLookup (p'.whereMap.getD []) "created",
        alistLookup (p'.whereMap.getD []) "modified",
        alistLookup (p'.whereMap.getD []) "other")) =
      .ok (some ⟨"range", .range 0 2147485547⟩, none,
        some ⟨"=", .txt "x"⟩) := by
  obtain ⟨p', heq, hsel, -, -, hothers, hframe, -⟩ :=
    C5_date_range_filter (fun _ => 42) "" "" ["created", "modified"] 0
      { defaultParams with
        whereMap := some [("modified", ⟨"range", .range 1 2⟩),
          ("other", ⟨"=", .txt "x"⟩)] }
      "created" (by decide) (by decide) rfl
  rw [heq]
  show Except.ok (alistLookup (p'.whereMap.getD []) "created",
    alistLookup (p'.whereMap.getD []) "modified",
    alistLookup (p'.whereMap.getD []) "other") = _
  rw [hothers "modified" (by decide) (by decide),
    hframe "other" (by decide)]
  simp only [ne_eq, not_true_eq_false, if_false,
    DataGridController.MIN_TIMESTAMP, DataGridController.MAX_TIMESTAMP]
    at hsel
  rw [hsel]
  rfl

/-- C6: for a file whose mimetype is guessed as `<type>/<subtype>`
(defaulting to `unknown/unknown` when guessing fails), the ordered icon
candidate list is exactly `<type>-<subtype>`, `<subtype>`, `<type>`,
then `application-x-<subtype>` iff the type is `application`, then
`<type>-x-generic`, then `unknown`; in particular `image/png` yields
`["image-png", "png", "image", "image-x-generic", "unknown"]`. -/
theorem C6_icon_candidate_list (guessedType : Option String)
    (mimetype details : String)
    (hsplit : pySplit (guessedType.getD "unknown/unknown") '/' =
      [mimetype, details]) :
    ImageUtils.iconCandidatesForFile false guessedType =
      .ok (ImageUtils.getIconList mimetype details) ∧
    (mimetype = "application" →
      ImageUtils.getIconList mimetype details =
        [mimetype ++ "-" ++ details, details, mimetype,
         "application-x-" ++ details, mimetype ++ "-x-generic",
         "unknown"]) ∧
    (mimetype ≠ "application" →
      ImageUtils.getIconList mimetype details =
        [mimetype ++ "-" ++ details, details, mimetype,
         mimetype ++ "-x-generic", "unknown"]) ∧
    ImageUtils.iconCandidatesForFile false (some "image/png") =
      .ok ["image-png", "png", "image", "image-x-generic", "unknown"] := by
  refine ⟨?_, ?_, ?_, ?_⟩
  · simp [ImageUtils.iconCandidatesForFile, ImageUtils.guessMimePair, hsplit]
  · intro h
    simp [ImageUtils.getIconList, h]
  · intro h
    simp [ImageUtils.getIconList, h]
  · rfl

/-- Witness for C6: the `image/png` instantiation. -/
theorem C6_icon_candidate_list_witness :
    ImageUtils.iconCandidatesForFile false (some "image/png") =
      .ok (ImageUtils.getIconList "image" "png") ∧
    ImageUtils.getIconList "image" "png" =
      ["image-png", "png", "image", "image-x-generic", "unknown"] := by
  refine ⟨(C6_icon_candidate_list (some "image/png") "image" "png" ?_).1,
    (C6_icon_candidate_list (some "image/png") "image" "png" ?_).2.2.1 ?_⟩
  · rfl
  · rfl
  · decide

end Datagrid
